import Mathlib

/-!
Formal model of the replication-slot reconciliation runner
(internal/management/controller/slots/runner/runner.go) and of the webhook
PKI coordinator (the certs package).  Go structures are embedded as Lean
structures; the Kubernetes client, the filesystem and the cryptographic
primitives are explicit oracles; stateful calls are embedded as explicit
state passing together with a trace of the calls that were issued, so that
claims about which calls happen (and in which order) can be stated directly.
-/

/-- A replication slot as listed by a slot manager.  Modelled from the spec:
the slot structure itself lives in the slots package, outside the sources at
hand; the spec gives it a unique name plus further metadata (state, activity),
which the second field stands for. -/
structure ReplicationSlot where
  slotName : String
  restartLSN : String
deriving DecidableEq, Repr

/-- Modelled from the spec: a SlotList is an unordered collection of slots
with a membership test by name (the Has method used by runner.go). -/
structure SlotList where
  items : List ReplicationSlot
deriving DecidableEq, Repr

def SlotList.Has (l : SlotList) (name : String) : Bool :=
  l.items.any (fun s => s.slotName == name)

/-- One invocation issued to the local slot manager during a pass. -/
inductive SlotOp where
  | create (s : ReplicationSlot)
  | update (s : ReplicationSlot)
  | delete (s : ReplicationSlot)
deriving DecidableEq, Repr

/-- Modelled from the spec: a slots.Manager (the interface lives in the slots
package, outside the sources at hand) as an oracle: the result of List, and
for each mutating call the error it would return, none meaning success. -/
structure Manager where
  listRes : Except String SlotList
  createErr : ReplicationSlot → Option String
  updateErr : ReplicationSlot → Option String
  deleteErr : ReplicationSlot → Option String

/-- The first loop of synchronizeReplicationSlots (runner.go lines 139-150):
for every slot of the primary, Create it locally when its name is absent
locally, then always Update it.  Returns the calls issued together with the
first error returned, none on success. -/
def syncPrimaryLoop (lm : Manager) (slotsInLocal : SlotList) :
    List ReplicationSlot → List SlotOp × Option String
  | [] => ([], none)
  | slot :: rest =>
    if slotsInLocal.Has slot.slotName then
      match lm.updateErr slot with
      | some e => ([SlotOp.update slot], some e)
      | none =>
        let r := syncPrimaryLoop lm slotsInLocal rest
        (SlotOp.update slot :: r.1, r.2)
    else
      match lm.createErr slot with
      | some e => ([SlotOp.create slot], some e)
      | none =>
        match lm.updateErr slot with
        | some e => ([SlotOp.create slot, SlotOp.update slot], some e)
        | none =>
          let r := syncPrimaryLoop lm slotsInLocal rest
          (SlotOp.create slot :: SlotOp.update slot :: r.1, r.2)

/-- The second loop of synchronizeReplicationSlots (runner.go lines 151-158):
every local slot whose name is absent from the primary list is deleted. -/
def syncDeleteLoop (lm : Manager) (slotsInPrimary : SlotList) :
    List ReplicationSlot → List SlotOp × Option String
  | [] => ([], none)
  | slot :: rest =>
    if slotsInPrimary.Has slot.slotName then
      syncDeleteLoop lm slotsInPrimary rest
    else
      match lm.deleteErr slot with
      | some e => ([SlotOp.delete slot], some e)
      | none =>
        let r := syncDeleteLoop lm slotsInPrimary rest
        (SlotOp.delete slot :: r.1, r.2)

/-- synchronizeReplicationSlots (runner.go lines 118-161): List on the
primary manager, List on the local manager, the create-and-update pass over
the primary slots, then the delete pass over the local slots.  Returns the
local-manager calls that were issued and the error value of the function. -/
def synchronizeReplicationSlots (pm lm : Manager) : List SlotOp × Option String :=
  match pm.listRes with
  | Except.error e => ([], some ("getting replication slot status from primary: " ++ e))
  | Except.ok slotsInPrimary =>
    match lm.listRes with
    | Except.error e => ([], some ("getting replication slot status from local: " ++ e))
    | Except.ok slotsInLocal =>
      let r1 := syncPrimaryLoop lm slotsInLocal slotsInPrimary.items
      match r1.2 with
      | some e => (r1.1, some e)
      | none =>
        let r2 := syncDeleteLoop lm slotsInPrimary slotsInLocal.items
        (r1.1 ++ r2.1, r2.2)

/-- The calls the create-and-update pass issues when no call fails. -/
def passOps (slotsInLocal : SlotList) : List ReplicationSlot → List SlotOp
  | [] => []
  | slot :: rest =>
    (if slotsInLocal.Has slot.slotName then [SlotOp.update slot]
     else [SlotOp.create slot, SlotOp.update slot]) ++ passOps slotsInLocal rest

/-- The calls the delete pass issues when no call fails. -/
def deleteOps (slotsInPrimary : SlotList) : List ReplicationSlot → List SlotOp
  | [] => []
  | slot :: rest =>
    (if slotsInPrimary.Has slot.slotName then [] else [SlotOp.delete slot]) ++
      deleteOps slotsInPrimary rest

/-- Number of occurrences of one slot-manager invocation in a trace. -/
def countOp : List SlotOp → SlotOp → Nat
  | [], _ => 0
  | x :: rest, o => (if x = o then 1 else 0) + countOp rest o

/-- Modelled from the spec: the effect of one local-manager call on the local
database slot set (Create adds the slot, Update refreshes the metadata of
the slot carrying that name, Delete removes it by name). -/
def applySlotOp (st : List ReplicationSlot) : SlotOp → List ReplicationSlot
  | SlotOp.create s => st ++ [s]
  | SlotOp.update s => st.map (fun x => if x.slotName == s.slotName then s else x)
  | SlotOp.delete s => st.filter (fun x => x.slotName != s.slotName)

def applySlotOps (st : List ReplicationSlot) (ops : List SlotOp) : List ReplicationSlot :=
  ops.foldl applySlotOp st

lemma countOp_append (l1 l2 : List SlotOp) (o : SlotOp) :
    countOp (l1 ++ l2) o = countOp l1 o + countOp l2 o := by
  induction l1 with
  | nil => simp [countOp]
  | cons x rest ih => simp [countOp, ih]; omega

lemma syncPrimaryLoop_ok (lm : Manager) (lL : SlotList)
    (hc : ∀ s, lm.createErr s = none) (hu : ∀ s, lm.updateErr s = none) :
    ∀ items, syncPrimaryLoop lm lL items = (passOps lL items, none) := by
  intro items
  induction items with
  | nil => rfl
  | cons slot rest ih =>
    cases h : lL.Has slot.slotName with
    | true => simp [syncPrimaryLoop, passOps, h, hc, hu, ih]
    | false => simp [syncPrimaryLoop, passOps, h, hc, hu, ih]

lemma syncDeleteLoop_ok (lm : Manager) (pL : SlotList)
    (hd : ∀ s, lm.deleteErr s = none) :
    ∀ items, syncDeleteLoop lm pL items = (deleteOps pL items, none) := by
  intro items
  induction items with
  | nil => rfl
  | cons slot rest ih =>
    cases h : pL.Has slot.slotName with
    | true => simp [syncDeleteLoop, deleteOps, h, hd, ih]
    | false => simp [syncDeleteLoop, deleteOps, h, hd, ih]

lemma countOp_passOps_create_zero (lL : SlotList) (s : ReplicationSlot) :
    ∀ items, s.slotName ∉ items.map ReplicationSlot.slotName →
      countOp (passOps lL items) (SlotOp.create s) = 0 := by
  intro items
  induction items with
  | nil => intro _; rfl
  | cons slot rest ih =>
    intro h
    simp only [List.map_cons, List.mem_cons, not_or] at h
    obtain ⟨hne, hrest⟩ := h
    have hsne : ¬ (slot = s) := fun hEq => by cases hEq; exact hne rfl
    cases hHas : lL.Has slot.slotName <;>
      simp [passOps, hHas, countOp_append, countOp, hsne, ih hrest]

lemma countOp_passOps_update_zero (lL : SlotList) (s : ReplicationSlot) :
    ∀ items, s.slotName ∉ items.map ReplicationSlot.slotName →
      countOp (passOps lL items) (SlotOp.update s) = 0 := by
  intro items
  induction items with
  | nil => intro _; rfl
  | cons slot rest ih =>
    intro h
    simp only [List.map_cons, List.mem_cons, not_or] at h
    obtain ⟨hne, hrest⟩ := h
    have hsne : ¬ (slot = s) := fun hEq => by cases hEq; exact hne rfl
    cases hHas : lL.Has slot.slotName <;>
      simp [passOps, hHas, countOp_append, countOp, hsne, ih hrest]

lemma countOp_deleteOps_delete_zero (pL : SlotList) (s : ReplicationSlot) :
    ∀ items, s.slotName ∉ items.map ReplicationSlot.slotName →
      countOp (deleteOps pL items) (SlotOp.delete s) = 0 := by
  intro items
  induction items with
  | nil => intro _; rfl
  | cons slot rest ih =>
    intro h
    simp only [List.map_cons, List.mem_cons, not_or] at h
    obtain ⟨hne, hrest⟩ := h
    have hsne : ¬ (slot = s) := fun hEq => by cases hEq; exact hne rfl
    cases hHas : pL.Has slot.slotName <;>
      simp [deleteOps, hHas, countOp_append, countOp, hsne, ih hrest]

lemma countOp_passOps_delete_zero (lL : SlotList) (s : ReplicationSlot) :
    ∀ items, countOp (passOps lL items) (SlotOp.delete s) = 0 := by
  intro items
  induction items with
  | nil => rfl
  | cons slot rest ih =>
    cases hHas : lL.Has slot.slotName <;>
      simp [passOps, hHas, countOp_append, countOp, ih]

lemma countOp_deleteOps_create_zero (pL : SlotList) (s : ReplicationSlot) :
    ∀ items, countOp (deleteOps pL items) (SlotOp.create s) = 0 := by
  intro items
  induction items with
  | nil => rfl
  | cons slot rest ih =>
    cases hHas : pL.Has slot.slotName <;>
      simp [deleteOps, hHas, countOp_append, countOp, ih]

lemma countOp_deleteOps_update_zero (pL : SlotList) (s : ReplicationSlot) :
    ∀ items, countOp (deleteOps pL items) (SlotOp.update s) = 0 := by
  intro items
  induction items with
  | nil => rfl
  | cons slot rest ih =>
    cases hHas : pL.Has slot.slotName <;>
      simp [deleteOps, hHas, countOp_append, countOp, ih]

lemma countOp_passOps_create (lL : SlotList) (s : ReplicationSlot) :
    ∀ items, (items.map ReplicationSlot.slotName).Nodup →
      countOp (passOps lL items) (SlotOp.create s) =
        if s ∈ items ∧ lL.Has s.slotName = false then 1 else 0 := by
  intro items
  induction items with
  | nil => intro _; simp [passOps, countOp]
  | cons slot rest ih =>
    intro hnd
    simp only [List.map_cons, List.nodup_cons] at hnd
    obtain ⟨hnotin, hndrest⟩ := hnd
    by_cases hEq : slot = s
    · cases hEq
      have h0 := countOp_passOps_create_zero lL s rest hnotin
      have hnotmem : s ∉ rest := fun hm => hnotin (List.mem_map_of_mem _ hm)
      cases hHas : lL.Has s.slotName <;>
        simp [passOps, hHas, countOp_append, countOp, h0, hnotmem]
    · have hEq2 : ¬ (s = slot) := fun h => hEq h.symm
      by_cases hName : s.slotName = slot.slotName
      · have h0 : countOp (passOps lL rest) (SlotOp.create s) = 0 := by
          apply countOp_passOps_create_zero
          rw [hName]; exact hnotin
        have hsnot : s ∉ rest := fun hm => by
          apply hnotin; rw [← hName]; exact List.mem_map_of_mem _ hm
        cases hHas : lL.Has slot.slotName <;>
          simp [passOps, hHas, countOp_append, countOp, hEq, hEq2, h0, hsnot]
      · have h1 := ih hndrest
        cases hHas : lL.Has slot.slotName <;>
          simp [passOps, hHas, countOp_append, countOp, hEq, hEq2, h1, List.mem_cons]

lemma countOp_passOps_update (lL : SlotList) (s : ReplicationSlot) :
    ∀ items, (items.map ReplicationSlot.slotName).Nodup →
      countOp (passOps lL items) (SlotOp.update s) =
        if s ∈ items then 1 else 0 := by
  intro items
  induction items with
  | nil => intro _; simp [passOps, countOp]
  | cons slot rest ih =>
    intro hnd
    simp only [List.map_cons, List.nodup_cons] at hnd
    obtain ⟨hnotin, hndrest⟩ := hnd
    by_cases hEq : slot = s
    · cases hEq
      have h0 := countOp_passOps_update_zero lL s rest hnotin
      cases hHas : lL.Has s.slotName <;>
        simp [passOps, hHas, countOp_append, countOp, h0]
    · have hEq2 : ¬ (s = slot) := fun h => hEq h.symm
      by_cases hName : s.slotName = slot.slotName
      · have h0 : countOp (passOps lL rest) (SlotOp.update s) = 0 := by
          apply countOp_passOps_update_zero
          rw [hName]; exact hnotin
        have hsnot : s ∉ rest := fun hm => by
          apply hnotin; rw [← hName]; exact List.mem_map_of_mem _ hm
        cases hHas : lL.Has slot.slotName <;>
          simp [passOps, hHas, countOp_append, countOp, hEq, hEq2, h0, hsnot]
      · have h1 := ih hndrest
        cases hHas : lL.Has slot.slotName <;>
          simp [passOps, hHas, countOp_append, countOp, hEq, hEq2, h1, List.mem_cons]

lemma countOp_deleteOps_delete (pL : SlotList) (s : ReplicationSlot) :
    ∀ items, (items.map ReplicationSlot.slotName).Nodup →
      countOp (deleteOps pL items) (SlotOp.delete s) =
        if s ∈ items ∧ pL.Has s.slotName = false then 1 else 0 := by
  intro items
  induction items with
  | nil => intro _; simp [deleteOps, countOp]
  | cons slot rest ih =>
    intro hnd
    simp only [List.map_cons, List.nodup_cons] at hnd
    obtain ⟨hnotin, hndrest⟩ := hnd
    by_cases hEq : slot = s
    · cases hEq
      have h0 := countOp_deleteOps_delete_zero pL s rest hnotin
      have hnotmem : s ∉ rest := fun hm => hnotin (List.mem_map_of_mem _ hm)
      cases hHas : pL.Has s.slotName <;>
        simp [deleteOps, hHas, countOp_append, countOp, h0, hnotmem]
    · have hEq2 : ¬ (s = slot) := fun h => hEq h.symm
      by_cases hName : s.slotName = slot.slotName
      · have h0 : countOp (deleteOps pL rest) (SlotOp.delete s) = 0 := by
          apply countOp_deleteOps_delete_zero
          rw [hName]; exact hnotin
        have hsnot : s ∉ rest := fun hm => by
          apply hnotin; rw [← hName]; exact List.mem_map_of_mem _ hm
        cases hHas : pL.Has slot.slotName <;>
          simp [deleteOps, hHas, countOp_append, countOp, hEq, hEq2, h0, hsnot]
      · have h1 := ih hndrest
        cases hHas : pL.Has slot.slotName <;>
          simp [deleteOps, hHas, countOp_append, countOp, hEq, hEq2, h1, List.mem_cons]

lemma synchronize_ok (pm lm : Manager) (pL lL : SlotList)
    (hp : pm.listRes = Except.ok pL) (hl : lm.listRes = Except.ok lL)
    (hc : ∀ s, lm.createErr s = none) (hu : ∀ s, lm.updateErr s = none)
    (hd : ∀ s, lm.deleteErr s = none) :
    synchronizeReplicationSlots pm lm =
      (passOps lL pL.items ++ deleteOps pL lL.items, none) := by
  simp [synchronizeReplicationSlots, hp, hl,
    syncPrimaryLoop_ok lm lL hc hu, syncDeleteLoop_ok lm pL hd]

def slotA : ReplicationSlot := { slotName := "slotA", restartLSN := "0/1" }

def slotB : ReplicationSlot := { slotName := "slotB", restartLSN := "0/2" }

def slotC : ReplicationSlot := { slotName := "slotC", restartLSN := "0/3" }

def exPrimaryList : SlotList := { items := [slotA, slotB] }

def exLocalList : SlotList := { items := [slotB, slotC] }

def exPM : Manager :=
  { listRes := Except.ok exPrimaryList, createErr := fun _ => none,
    updateErr := fun _ => none, deleteErr := fun _ => none }

def exLM : Manager :=
  { listRes := Except.ok exLocalList, createErr := fun _ => none,
    updateErr := fun _ => none, deleteErr := fun _ => none }

/-- Claim C1: for every pair of slot lists returned by the two List calls of
one reconciliation pass, the pass invokes Create on the local manager exactly
once for each primary slot whose name is absent locally, Update exactly once
for every primary slot, and Delete exactly once for each local slot whose
name is absent from the primary list; in particular, with primary slots
slotA, slotB and local slots slotB, slotC, a successful pass leaves the
local slot set equal, by name, to the primary set, with exactly the calls
Create slotA, Update slotA, Update slotB, Delete slotC. -/
theorem sync_pass_invocation_counts (pm lm : Manager) (pL lL : SlotList)
    (hp : pm.listRes = Except.ok pL) (hl : lm.listRes = Except.ok lL)
    (hc : ∀ s, lm.createErr s = none) (hu : ∀ s, lm.updateErr s = none)
    (hd : ∀ s, lm.deleteErr s = none)
    (hnp : (pL.items.map ReplicationSlot.slotName).Nodup)
    (hnl : (lL.items.map ReplicationSlot.slotName).Nodup) :
    (synchronizeReplicationSlots pm lm).2 = none ∧
    (∀ s, countOp (synchronizeReplicationSlots pm lm).1 (SlotOp.create s) =
      if s ∈ pL.items ∧ lL.Has s.slotName = false then 1 else 0) ∧
    (∀ s, countOp (synchronizeReplicationSlots pm lm).1 (SlotOp.update s) =
      if s ∈ pL.items then 1 else 0) ∧
    (∀ s, countOp (synchronizeReplicationSlots pm lm).1 (SlotOp.delete s) =
      if s ∈ lL.items ∧ pL.Has s.slotName = false then 1 else 0) ∧
    (synchronizeReplicationSlots exPM exLM).1 =
      [SlotOp.create slotA, SlotOp.update slotA, SlotOp.update slotB,
       SlotOp.delete slotC] ∧
    ((applySlotOps exLocalList.items
        (synchronizeReplicationSlots exPM exLM).1).map ReplicationSlot.slotName).Perm
      (exPrimaryList.items.map ReplicationSlot.slotName) := by
  have hs := synchronize_ok pm lm pL lL hp hl hc hu hd
  refine ⟨by rw [hs], ?_, ?_, ?_, by decide, by decide⟩
  · intro s
    rw [hs, countOp_append, countOp_passOps_create lL s pL.items hnp,
      countOp_deleteOps_create_zero]
    simp
  · intro s
    rw [hs, countOp_append, countOp_passOps_update lL s pL.items hnp,
      countOp_deleteOps_update_zero]
    simp
  · intro s
    rw [hs, countOp_append, countOp_passOps_delete_zero,
      countOp_deleteOps_delete pL s lL.items hnl]
    simp

/-- Witness for claim C1 at the concrete lists of the spec example. -/
theorem sync_pass_invocation_counts_instance :
    exPM.listRes = Except.ok exPrimaryList ∧
    exLM.listRes = Except.ok exLocalList ∧
    ((synchronizeReplicationSlots exPM exLM).2 = none ∧
     (∀ s, countOp (synchronizeReplicationSlots exPM exLM).1 (SlotOp.create s) =
       if s ∈ exPrimaryList.items ∧ exLocalList.Has s.slotName = false then 1 else 0) ∧
     (∀ s, countOp (synchronizeReplicationSlots exPM exLM).1 (SlotOp.update s) =
       if s ∈ exPrimaryList.items then 1 else 0) ∧
     (∀ s, countOp (synchronizeReplicationSlots exPM exLM).1 (SlotOp.delete s) =
       if s ∈ exLocalList.items ∧ exPrimaryList.Has s.slotName = false then 1 else 0) ∧
     (synchronizeReplicationSlots exPM exLM).1 =
       [SlotOp.create slotA, SlotOp.update slotA, SlotOp.update slotB,
        SlotOp.delete slotC] ∧
     ((applySlotOps exLocalList.items
         (synchronizeReplicationSlots exPM exLM).1).map ReplicationSlot.slotName).Perm
       (exPrimaryList.items.map ReplicationSlot.slotName)) :=
  ⟨rfl, rfl,
   sync_pass_invocation_counts exPM exLM exPrimaryList exLocalList rfl rfl
     (fun _ => rfl) (fun _ => rfl) (fun _ => rfl) (by decide) (by decide)⟩

/-- The highAvailability section of the replication-slot configuration. -/
structure HAConfiguration where
  enabled : Bool
deriving DecidableEq, Repr

/-- The replication-slot configuration delivered on the channel, restricted
to the fields the runner reads; both the whole configuration and its
highAvailability section may be absent (nil in Go). -/
structure ReplicationSlotsConfiguration where
  highAvailability : Option HAConfiguration
  updateInterval : Nat
deriving DecidableEq, Repr

/-- Modelled from the spec: GetUpdateInterval is an accessor of the api
package, outside the sources at hand; it yields the update interval implied
by the configuration, with a fixed default when none is present. -/
def GetUpdateInterval : Option ReplicationSlotsConfiguration → Nat
  | none => 30
  | some c => c.updateInterval

/-- The condition of runner.go line 72: replication is disabled when the
configuration is absent, has no highAvailability section, or has it
disabled. -/
def replicationDisabled : Option ReplicationSlotsConfiguration → Bool
  | none => true
  | some c =>
    match c.highAvailability with
    | none => true
    | some ha => !ha.enabled

/-- The mutable state of the Start goroutine while it is inside its for
loop: the last received configuration, the updateInterval variable, and
whether the ticker is currently running (NewTicker and Reset start it, Stop
stops it; a stopped ticker fires no tick until Reset is called). -/
structure LoopState where
  config : Option ReplicationSlotsConfiguration
  updateInterval : Nat
  tickerRunning : Bool
deriving DecidableEq, Repr

/-- The control position of the Start goroutine: blocked on the first
channel receive of line 48, inside the for loop, or returned. -/
inductive RunnerPhase where
  | waitingForConfig
  | looping (st : LoopState)
  | terminated
deriving DecidableEq, Repr

/-- One event resolved by the select of runner.go lines 62-68. -/
inductive RunnerEvent where
  | cancel
  | newConfig (c : Option ReplicationSlotsConfiguration)
  | tick
deriving DecidableEq, Repr

/-- Observable actions of one loop iteration. -/
inductive RunnerAction where
  | tickerStop
  | tickerReset (interval : Nat)
  | syncPass (calls : List SlotOp) (result : Option String)
  | logSyncError (msg : String)
deriving DecidableEq, Repr

/-- One step of the Start goroutine (runner.go lines 45-115), driven by the
event its select resolves to.  In waitingForConfig the goroutine is blocked
on the plain channel receive of line 48, which does not select on the
cancellation signal, so a cancellation event leaves it blocked and unchanged;
a tick cannot occur there because no ticker exists yet.  Receiving the first
configuration creates the ticker and enters the loop without running the
body.  Inside the loop: cancellation returns (running the deferred
ticker.Stop); a disabled configuration stops the ticker and continues; an
enabled one resets the ticker only when the interval changed, then runs one
reconciliation pass, logging its error if any and continuing either way. -/
def stepReplicator (pm lm : Manager) :
    RunnerPhase → RunnerEvent → RunnerPhase × List RunnerAction
  | RunnerPhase.waitingForConfig, RunnerEvent.newConfig c =>
    (RunnerPhase.looping
      { config := c, updateInterval := GetUpdateInterval c, tickerRunning := true }, [])
  | RunnerPhase.waitingForConfig, _ => (RunnerPhase.waitingForConfig, [])
  | RunnerPhase.terminated, _ => (RunnerPhase.terminated, [])
  | RunnerPhase.looping _, RunnerEvent.cancel =>
    (RunnerPhase.terminated, [RunnerAction.tickerStop])
  | RunnerPhase.looping st, e =>
    let st1 := match e with
      | RunnerEvent.newConfig c => { st with config := c }
      | _ => st
    if replicationDisabled st1.config then
      (RunnerPhase.looping { st1 with tickerRunning := false }, [RunnerAction.tickerStop])
    else
      let newUpdateInterval := GetUpdateInterval st1.config
      let st2 :=
        if st1.updateInterval = newUpdateInterval then st1
        else { st1 with updateInterval := newUpdateInterval, tickerRunning := true }
      let resetActs :=
        if st1.updateInterval = newUpdateInterval then ([] : List RunnerAction)
        else [RunnerAction.tickerReset newUpdateInterval]
      let r := synchronizeReplicationSlots pm lm
      match r.2 with
      | some msg =>
        (RunnerPhase.looping st2,
         resetActs ++ [RunnerAction.syncPass r.1 (some msg), RunnerAction.logSyncError msg])
      | none => (RunnerPhase.looping st2, resetActs ++ [RunnerAction.syncPass r.1 none])

/-- Fold of stepReplicator over a sequence of events. -/
def runReplicator (pm lm : Manager) (p : RunnerPhase) : List RunnerEvent → RunnerPhase
  | [] => p
  | e :: rest => runReplicator pm lm (stepReplicator pm lm p e).1 rest

def enabledConfig : ReplicationSlotsConfiguration :=
  { highAvailability := some { enabled := true }, updateInterval := 5 }

def disabledConfig : ReplicationSlotsConfiguration :=
  { highAvailability := some { enabled := false }, updateInterval := 5 }

/-- Claim C2 is false on the code: after the tick was stopped because a
disabled configuration arrived, a subsequent configuration with
highAvailability enabled and the same update interval does not restart the
ticker (ticker.Reset is only called when the interval changed), so periodic
ticking does not resume.  The event run below receives an enabled
configuration (interval 5), then a disabled one (tick stopped), then the
enabled one again: the loop ends with tickerRunning = false. -/
theorem ticker_not_resumed_on_equal_interval :
    runReplicator exPM exLM RunnerPhase.waitingForConfig
        [RunnerEvent.newConfig (some enabledConfig),
         RunnerEvent.newConfig (some disabledConfig),
         RunnerEvent.newConfig (some enabledConfig)] =
      RunnerPhase.looping
        { config := some enabledConfig, updateInterval := 5, tickerRunning := false } ∧
    runReplicator exPM exLM RunnerPhase.waitingForConfig
        [RunnerEvent.newConfig (some enabledConfig),
         RunnerEvent.newConfig (some disabledConfig)] =
      RunnerPhase.looping
        { config := some disabledConfig, updateInterval := 5, tickerRunning := false } ∧
    replicationDisabled (some enabledConfig) = false ∧
    GetUpdateInterval (some enabledConfig) = 5 := by
  refine ⟨?_, ?_, by decide, by decide⟩ <;> decide

/-- Claim C2 amended: after the tick was stopped, the arrival of a
configuration with highAvailability enabled restarts periodic ticking if
and only if the update interval it implies differs from the interval
currently tracked by the loop; in either case that configuration event
itself triggers one reconciliation pass, and the interval variable ends up
equal to the interval of the new configuration. -/
theorem ticking_resumes_iff_interval_changed (pm lm : Manager) (st : LoopState)
    (c : ReplicationSlotsConfiguration)
    (hstopped : st.tickerRunning = false)
    (hen : replicationDisabled (some c) = false) :
    (stepReplicator pm lm (RunnerPhase.looping st) (RunnerEvent.newConfig (some c))).1 =
      RunnerPhase.looping
        { config := some c, updateInterval := GetUpdateInterval (some c),
          tickerRunning :=
            if st.updateInterval = GetUpdateInterval (some c) then false else true } ∧
    (∃ t r, RunnerAction.syncPass t r ∈
      (stepReplicator pm lm (RunnerPhase.looping st) (RunnerEvent.newConfig (some c))).2) := by
  by_cases hI : st.updateInterval = GetUpdateInterval (some c)
  · cases hr : (synchronizeReplicationSlots pm lm).2 with
    | some msg =>
      refine ⟨?_, ⟨(synchronizeReplicationSlots pm lm).1, some msg, ?_⟩⟩ <;>
        simp [stepReplicator, hen, hI, hr, hstopped, GetUpdateInterval]
    | none =>
      refine ⟨?_, ⟨(synchronizeReplicationSlots pm lm).1, none, ?_⟩⟩ <;>
        simp [stepReplicator, hen, hI, hr, hstopped, GetUpdateInterval]
  · simp only [GetUpdateInterval] at hI
    cases hr : (synchronizeReplicationSlots pm lm).2 with
    | some msg =>
      refine ⟨?_, ⟨(synchronizeReplicationSlots pm lm).1, some msg, ?_⟩⟩ <;>
        simp [stepReplicator, hen, hI, hr, hstopped, GetUpdateInterval]
    | none =>
      refine ⟨?_, ⟨(synchronizeReplicationSlots pm lm).1, none, ?_⟩⟩ <;>
        simp [stepReplicator, hen, hI, hr, hstopped, GetUpdateInterval]

/-- Witness for the amended claim C2 at a concrete stopped state and a
concrete enabled configuration whose interval differs. -/
theorem ticking_resumes_iff_interval_changed_instance :
    ({ config := some disabledConfig, updateInterval := 7,
       tickerRunning := false } : LoopState).tickerRunning = false ∧
    replicationDisabled (some enabledConfig) = false ∧
    ((stepReplicator exPM exLM
        (RunnerPhase.looping
          { config := some disabledConfig, updateInterval := 7, tickerRunning := false })
        (RunnerEvent.newConfig (some enabledConfig))).1 =
      RunnerPhase.looping
        { config := some enabledConfig, updateInterval := GetUpdateInterval (some enabledConfig),
          tickerRunning :=
            if (7 : Nat) = GetUpdateInterval (some enabledConfig) then false else true } ∧
     (∃ t r, RunnerAction.syncPass t r ∈
       (stepReplicator exPM exLM
         (RunnerPhase.looping
           { config := some disabledConfig, updateInterval := 7, tickerRunning := false })
         (RunnerEvent.newConfig (some enabledConfig))).2)) :=
  ⟨rfl, by decide,
   ticking_resumes_iff_interval_changed exPM exLM
     { config := some disabledConfig, updateInterval := 7, tickerRunning := false }
     enabledConfig rfl (by decide)⟩

/-- Claim C3 is false on the code in the initial state: before the first
configuration has been received the goroutine is blocked on the plain
channel receive of runner.go line 48, which does not select on the
cancellation signal, so a cancellation event does not terminate the loop
there: the goroutine stays blocked in waitingForConfig. -/
theorem cancel_ignored_while_waiting_for_config :
    stepReplicator exPM exLM RunnerPhase.waitingForConfig RunnerEvent.cancel =
      (RunnerPhase.waitingForConfig, []) ∧
    RunnerPhase.waitingForConfig ≠ RunnerPhase.terminated :=
  ⟨rfl, by decide⟩

/-- Claim C3 amended: in every state of the event loop proper, that is in
any state reached after the first configuration has been received, observing
the cancellation signal stops the ticker (the deferred ticker.Stop runs),
transitions the loop to Terminated and exits; in the initial
waitingForConfig state, however, the cancellation signal is not observed:
the goroutine remains blocked on the configuration channel, unchanged. -/
theorem cancel_terminates_event_loop (pm lm : Manager) (st : LoopState) :
    stepReplicator pm lm (RunnerPhase.looping st) RunnerEvent.cancel =
      (RunnerPhase.terminated, [RunnerAction.tickerStop]) ∧
    stepReplicator pm lm RunnerPhase.waitingForConfig RunnerEvent.cancel =
      (RunnerPhase.waitingForConfig, []) :=
  ⟨rfl, rfl⟩

lemma syncPrimaryLoop_none (lm : Manager) (lL : SlotList) :
    ∀ items, (syncPrimaryLoop lm lL items).2 = none →
      (syncPrimaryLoop lm lL items).1 = passOps lL items := by
  intro items
  induction items with
  | nil => intro _; rfl
  | cons slot rest ih =>
    intro hnone
    cases hHas : lL.Has slot.slotName with
    | true =>
      cases hu : lm.updateErr slot with
      | some e => simp [syncPrimaryLoop, hHas, hu] at hnone
      | none =>
        have h2 : (syncPrimaryLoop lm lL rest).2 = none := by
          simpa [syncPrimaryLoop, hHas, hu] using hnone
        simp [syncPrimaryLoop, passOps, hHas, hu, ih h2]
    | false =>
      cases hc : lm.createErr slot with
      | some e => simp [syncPrimaryLoop, hHas, hc] at hnone
      | none =>
        cases hu : lm.updateErr slot with
        | some e => simp [syncPrimaryLoop, hHas, hc, hu] at hnone
        | none =>
          have h2 : (syncPrimaryLoop lm lL rest).2 = none := by
            simpa [syncPrimaryLoop, hHas, hc, hu] using hnone
          simp [syncPrimaryLoop, passOps, hHas, hc, hu, ih h2]

/-- The error the local manager would return for one call. -/
def opErr (lm : Manager) : SlotOp → Option String
  | SlotOp.create s => lm.createErr s
  | SlotOp.update s => lm.updateErr s
  | SlotOp.delete s => lm.deleteErr s

lemma syncPrimaryLoop_all_ok (lm : Manager) (lL : SlotList) :
    ∀ items, (syncPrimaryLoop lm lL items).2 = none →
      ∀ o, o ∈ passOps lL items → opErr lm o = none := by
  intro items
  induction items with
  | nil => intro _ o ho; simp [passOps] at ho
  | cons slot rest ih =>
    intro hnone o ho
    cases hHas : lL.Has slot.slotName with
    | true =>
      cases hu : lm.updateErr slot with
      | some e => simp [syncPrimaryLoop, hHas, hu] at hnone
      | none =>
        have h2 : (syncPrimaryLoop lm lL rest).2 = none := by
          simpa [syncPrimaryLoop, hHas, hu] using hnone
        simp [passOps, hHas] at ho
        rcases ho with ho1 | ho2
        · rw [ho1]; simp [opErr, hu]
        · exact ih h2 o ho2
    | false =>
      cases hc : lm.createErr slot with
      | some e => simp [syncPrimaryLoop, hHas, hc] at hnone
      | none =>
        cases hu : lm.updateErr slot with
        | some e => simp [syncPrimaryLoop, hHas, hc, hu] at hnone
        | none =>
          have h2 : (syncPrimaryLoop lm lL rest).2 = none := by
            simpa [syncPrimaryLoop, hHas, hc, hu] using hnone
          simp [passOps, hHas] at ho
          rcases ho with ho1 | ho2 | ho3
          · rw [ho1]; simp [opErr, hc]
          · rw [ho2]; simp [opErr, hu]
          · exact ih h2 o ho3

lemma syncPrimaryLoop_err (lm : Manager) (lL : SlotList) :
    ∀ items e, (syncPrimaryLoop lm lL items).2 = some e →
      ∃ pre op post, passOps lL items = pre ++ op :: post ∧
        (syncPrimaryLoop lm lL items).1 = pre ++ [op] ∧
        opErr lm op = some e ∧
        (∀ o, o ∈ pre → opErr lm o = none) := by
  intro items
  induction items with
  | nil => intro e he; simp [syncPrimaryLoop] at he
  | cons slot rest ih =>
    intro e he
    cases hHas : lL.Has slot.slotName with
    | true =>
      cases hu : lm.updateErr slot with
      | some e2 =>
        have he2 : e2 = e := by simpa [syncPrimaryLoop, hHas, hu] using he
        refine ⟨[], SlotOp.update slot, passOps lL rest, ?_, ?_, ?_, ?_⟩
        · simp [passOps, hHas]
        · simp [syncPrimaryLoop, hHas, hu]
        · simp [opErr, hu, he2]
        · intro o ho; simp at ho
      | none =>
        have he2 : (syncPrimaryLoop lm lL rest).2 = some e := by
          simpa [syncPrimaryLoop, hHas, hu] using he
        obtain ⟨pre, op, post, hsplit, htrace, herr, hpre⟩ := ih e he2
        refine ⟨SlotOp.update slot :: pre, op, post, ?_, ?_, herr, ?_⟩
        · simp [passOps, hHas, hsplit]
        · simp [syncPrimaryLoop, hHas, hu, htrace]
        · intro o ho
          rcases List.mem_cons.mp ho with ho1 | ho2
          · rw [ho1]; simp [opErr, hu]
          · exact hpre o ho2
    | false =>
      cases hc : lm.createErr slot with
      | some e2 =>
        have he2 : e2 = e := by simpa [syncPrimaryLoop, hHas, hc] using he
        refine ⟨[], SlotOp.create slot, SlotOp.update slot :: passOps lL rest, ?_, ?_, ?_, ?_⟩
        · simp [passOps, hHas]
        · simp [syncPrimaryLoop, hHas, hc]
        · simp [opErr, hc, he2]
        · intro o ho; simp at ho
      | none =>
        cases hu : lm.updateErr slot with
        | some e2 =>
          have he2 : e2 = e := by simpa [syncPrimaryLoop, hHas, hc, hu] using he
          refine ⟨[SlotOp.create slot], SlotOp.update slot, passOps lL rest, ?_, ?_, ?_, ?_⟩
          · simp [passOps, hHas]
          · simp [syncPrimaryLoop, hHas, hc, hu]
          · simp [opErr, hu, he2]
          · intro o ho
            simp at ho
            rw [ho]; simp [opErr, hc]
        | none =>
          have he2 : (syncPrimaryLoop lm lL rest).2 = some e := by
            simpa [syncPrimaryLoop, hHas, hc, hu] using he
          obtain ⟨pre, op, post, hsplit, htrace, herr, hpre⟩ := ih e he2
          refine ⟨SlotOp.create slot :: SlotOp.update slot :: pre, op, post, ?_, ?_, herr, ?_⟩
          · simp [passOps, hHas, hsplit]
          · simp [syncPrimaryLoop, hHas, hc, hu, htrace]
          · intro o ho
            rcases List.mem_cons.mp ho with ho1 | ho2
            · rw [ho1]; simp [opErr, hc]
            · rcases List.mem_cons.mp ho2 with ho3 | ho4
              · rw [ho3]; simp [opErr, hu]
              · exact hpre o ho4

lemma syncDeleteLoop_err (lm : Manager) (pL : SlotList) :
    ∀ items e, (syncDeleteLoop lm pL items).2 = some e →
      ∃ pre op post, deleteOps pL items = pre ++ op :: post ∧
        (syncDeleteLoop lm pL items).1 = pre ++ [op] ∧
        opErr lm op = some e ∧
        (∀ o, o ∈ pre → opErr lm o = none) := by
  intro items
  induction items with
  | nil => intro e he; simp [syncDeleteLoop] at he
  | cons slot rest ih =>
    intro e he
    cases hHas : pL.Has slot.slotName with
    | true =>
      have he2 : (syncDeleteLoop lm pL rest).2 = some e := by
        simpa [syncDeleteLoop, hHas] using he
      obtain ⟨pre, op, post, hsplit, htrace, herr, hpre⟩ := ih e he2
      refine ⟨pre, op, post, ?_, ?_, herr, hpre⟩
      · simp [deleteOps, hHas, hsplit]
      · simpa [syncDeleteLoop, hHas] using htrace
    | false =>
      cases hd : lm.deleteErr slot with
      | some e2 =>
        have he2 : e2 = e := by simpa [syncDeleteLoop, hHas, hd] using he
        refine ⟨[], SlotOp.delete slot, deleteOps pL rest, ?_, ?_, ?_, ?_⟩
        · simp [deleteOps, hHas]
        · simp [syncDeleteLoop, hHas, hd]
        · simp [opErr, hd, he2]
        · intro o ho; simp at ho
      | none =>
        have he2 : (syncDeleteLoop lm pL rest).2 = some e := by
          simpa [syncDeleteLoop, hHas, hd] using he
        obtain ⟨pre, op, post, hsplit, htrace, herr, hpre⟩ := ih e he2
        refine ⟨SlotOp.delete slot :: pre, op, post, ?_, ?_, herr, ?_⟩
        · simp [deleteOps, hHas, hsplit]
        · simp [syncDeleteLoop, hHas, hd, htrace]
        · intro o ho
          rcases List.mem_cons.mp ho with ho1 | ho2
          · rw [ho1]; simp [opErr, hd]
          · exact hpre o ho2

/-- Claim C7: if any List, Create, Update or Delete call of a pass returns
an error, the pass stops immediately at the first failing call: for a
failed List the pass issues no slot operation at all, and for a failed
mutation the intended call sequence splits as pre, the failing call, and a
remainder, every call in pre succeeded, the calls issued are exactly pre
followed by the failing call (so no further slot operations run and no
rollback operations are issued), and the error of that call is returned; in
the runner loop the error is logged and the loop stays in a looping state,
waiting for the next event, rather than terminating. -/
theorem pass_error_aborts_pass_only (pm lm : Manager) :
    (∀ e, pm.listRes = Except.error e →
      synchronizeReplicationSlots pm lm =
        ([], some ("getting replication slot status from primary: " ++ e))) ∧
    (∀ pL e, pm.listRes = Except.ok pL → lm.listRes = Except.error e →
      synchronizeReplicationSlots pm lm =
        ([], some ("getting replication slot status from local: " ++ e))) ∧
    (∀ pL lL e, pm.listRes = Except.ok pL → lm.listRes = Except.ok lL →
      (synchronizeReplicationSlots pm lm).2 = some e →
      ∃ pre op post,
        passOps lL pL.items ++ deleteOps pL lL.items = pre ++ op :: post ∧
        (synchronizeReplicationSlots pm lm).1 = pre ++ [op] ∧
        opErr lm op = some e ∧
        (∀ o, o ∈ pre → opErr lm o = none)) ∧
    (∀ st msg, replicationDisabled st.config = false →
      (synchronizeReplicationSlots pm lm).2 = some msg →
      (∃ st2, (stepReplicator pm lm (RunnerPhase.looping st) RunnerEvent.tick).1 =
        RunnerPhase.looping st2) ∧
      RunnerAction.logSyncError msg ∈
        (stepReplicator pm lm (RunnerPhase.looping st) RunnerEvent.tick).2) := by
  refine ⟨?_, ?_, ?_, ?_⟩
  · intro e he; simp [synchronizeReplicationSlots, he]
  · intro pL e hp hl; simp [synchronizeReplicationSlots, hp, hl]
  · intro pL lL e hp hl hse
    cases hr : (syncPrimaryLoop lm lL pL.items).2 with
    | some e1 =>
      have hfst : synchronizeReplicationSlots pm lm =
          ((syncPrimaryLoop lm lL pL.items).1, some e1) := by
        simp [synchronizeReplicationSlots, hp, hl, hr]
      have he1 : e1 = e := by
        rw [hfst] at hse
        simpa using hse
      obtain ⟨pre, op, post, hsplit, htrace, herr, hpre⟩ :=
        syncPrimaryLoop_err lm lL pL.items e1 hr
      refine ⟨pre, op, post ++ deleteOps pL lL.items, ?_, ?_, ?_, hpre⟩
      · rw [hsplit]
        simp
      · rw [hfst]
        simpa using htrace
      · rw [← he1]
        exact herr
    | none =>
      have h1 := syncPrimaryLoop_none lm lL pL.items hr
      have hall := syncPrimaryLoop_all_ok lm lL pL.items hr
      have hfst : synchronizeReplicationSlots pm lm =
          ((syncPrimaryLoop lm lL pL.items).1 ++ (syncDeleteLoop lm pL lL.items).1,
           (syncDeleteLoop lm pL lL.items).2) := by
        simp [synchronizeReplicationSlots, hp, hl, hr]
      have hse2 : (syncDeleteLoop lm pL lL.items).2 = some e := by
        rw [hfst] at hse
        simpa using hse
      obtain ⟨pre, op, post, hsplit, htrace, herr, hpre⟩ :=
        syncDeleteLoop_err lm pL lL.items e hse2
      refine ⟨passOps lL pL.items ++ pre, op, post, ?_, ?_, herr, ?_⟩
      · rw [hsplit]
        simp
      · rw [hfst, h1, htrace]
        simp
      · intro o ho
        rcases List.mem_append.mp ho with ho1 | ho2
        · exact hall o ho1
        · exact hpre o ho2
  · intro st msg hdis hr
    by_cases hI : st.updateInterval = GetUpdateInterval st.config
    · constructor
      · exact ⟨st, by simp [stepReplicator, hdis, hI, hr]⟩
      · simp [stepReplicator, hdis, hI, hr]
    · constructor
      · exact ⟨{ st with updateInterval := GetUpdateInterval st.config, tickerRunning := true },
          by simp [stepReplicator, hdis, hI, hr]⟩
      · simp [stepReplicator, hdis, hI, hr]

/-- A local manager whose Update call fails on slotB. -/
def exLMFailing : Manager :=
  { listRes := Except.ok exLocalList, createErr := fun _ => none,
    updateErr := fun s => if s.slotName == "slotB" then some "update failed" else none,
    deleteErr := fun _ => none }

/-- Witness for claim C7 at a concrete failing manager. -/
theorem pass_error_aborts_pass_only_instance :
    exPM.listRes = Except.ok exPrimaryList ∧
    exLMFailing.listRes = Except.ok exLocalList ∧
    (synchronizeReplicationSlots exPM exLMFailing).2 = some "update failed" ∧
    (∃ pre op post,
      passOps exLocalList exPrimaryList.items ++ deleteOps exPrimaryList exLocalList.items =
        pre ++ op :: post ∧
      (synchronizeReplicationSlots exPM exLMFailing).1 = pre ++ [op] ∧
      opErr exLMFailing op = some "update failed" ∧
      (∀ o, o ∈ pre → opErr exLMFailing o = none)) :=
  ⟨rfl, rfl, by decide,
   (pass_error_aborts_pass_only exPM exLMFailing).2.2.1 exPrimaryList exLocalList
     "update failed" rfl rfl (by decide)⟩

/-- An error returned by the Kubernetes client, the parsers or the
filesystem; isNotFound mirrors apierrors.IsNotFound. -/
structure Err where
  isNotFound : Bool
  msg : String
deriving DecidableEq, Repr

/-- A Kubernetes secret restricted to the fields the certs package reads:
namespace, name, resourceVersion and the data byte map (as an association
list, certificate and key bytes as strings). -/
structure Secret where
  ns : String
  name : String
  resourceVersion : String
  data : List (String × String)
deriving DecidableEq, Repr

/-- Go map read m[k] as an option. -/
def lookupData : List (String × String) → String → Option String
  | [], _ => none
  | (k1, v) :: rest, k => if k1 = k then some v else lookupData rest k

/-- Go map assignment m[k] = v: replace the binding when present, add it
otherwise. -/
def setData : List (String × String) → String → String → List (String × String)
  | [], k, v => [(k, v)]
  | (k1, v1) :: rest, k, v =>
    if k1 = k then (k1, v) :: rest else (k1, v1) :: setData rest k v

/-- Go map read m[k], empty bytes (nil) when the key is absent. -/
def getData (d : List (String × String)) (k : String) : String :=
  (lookupData d k).getD ""

/-- One entry of an admission-webhook configuration: its CA-bundle byte
field (ClientConfig.CABundle) plus a field standing for every other field
of the entry. -/
structure Webhook where
  name : String
  caBundle : String
  rest : String
deriving DecidableEq, Repr

/-- A named admission-webhook configuration holding an ordered list of
webhook entries. -/
structure WebhookConfiguration where
  name : String
  webhooks : List Webhook
deriving DecidableEq, Repr

/-- Modelled from the spec: a parsed certificate pair (the Certificate
Authority Logic lives outside the sources at hand); it carries the private
key bytes and the certificate bytes. -/
structure KeyPair where
  privateKey : String
  certificate : String
deriving DecidableEq, Repr

/-- Modelled from the spec: the cryptographic primitives of the Certificate
Authority Logic, outside the sources at hand, as deterministic oracles:
expiry evaluation of a certificate, parsing of an elliptic-curve private
key, renewal (re-signing a certificate with a given key), the fresh pair
used when a new authority is created, and leaf creation-and-signing from a
signing key and a hostname. -/
structure CryptoEnv where
  isExpiring : String → Except Err Bool
  parseECKey : String → Except Err String
  renewCert : String → String → Except Err String
  newCAPair : KeyPair
  signLeaf : String → String → Except Err KeyPair

/-- Modelled from the spec: ParseCASecret decodes the ca.crt and ca.key
fields of a secret, failing when one is missing. -/
def ParseCASecret (s : Secret) : Except Err KeyPair :=
  match lookupData s.data "ca.crt", lookupData s.data "ca.key" with
  | some crt, some key => Except.ok { privateKey := key, certificate := crt }
  | _, _ => Except.error { isNotFound := false, msg := "missing CA secret data" }

/-- Modelled from the spec: ParseServerSecret decodes the tls.crt and
tls.key fields of a secret, failing when one is missing. -/
def ParseServerSecret (s : Secret) : Except Err KeyPair :=
  match lookupData s.data "tls.crt", lookupData s.data "tls.key" with
  | some crt, some key => Except.ok { privateKey := key, certificate := crt }
  | _, _ => Except.error { isNotFound := false, msg := "missing server secret data" }

/-- Modelled from the spec: GenerateCASecret wraps a CA pair into a secret
with the conventional ca.crt and ca.key fields. -/
def GenerateCASecret (pair : KeyPair) (ns name : String) : Secret :=
  { ns := ns, name := name, resourceVersion := "",
    data := [("ca.key", pair.privateKey), ("ca.crt", pair.certificate)] }

/-- Modelled from the spec: GenerateServerSecret wraps a leaf pair into a
secret with the conventional tls.crt and tls.key fields. -/
def GenerateServerSecret (pair : KeyPair) (ns name : String) : Secret :=
  { ns := ns, name := name, resourceVersion := "",
    data := [("tls.key", pair.privateKey), ("tls.crt", pair.certificate)] }

/-- The Kubernetes client as a read oracle: for each call the object or
error it returns.  The calls each operation issues are recorded in its
returned trace. -/
structure KubeClient where
  getSecret : String → String → Except Err Secret
  createSecret : String → Secret → Except Err Secret
  updateSecret : String → Secret → Except Err Secret
  getMutating : String → Except Err WebhookConfiguration
  updateMutating : WebhookConfiguration → Except Err WebhookConfiguration
  getValidating : String → Except Err WebhookConfiguration
  updateValidating : WebhookConfiguration → Except Err WebhookConfiguration

/-- One call issued by the certs package, as recorded in traces.  The
renewCA and renewLeaf constructors record the invocation of
pair.RenewCertificate with the signing key it was handed, at the CA renewal
site and at the leaf renewal site respectively; createLeaf records
CreateAndSignPair with the CA key used. -/
inductive CertAction where
  | secretGet (ns name : String)
  | secretCreate (ns : String) (s : Secret)
  | secretUpdate (ns : String) (s : Secret)
  | renewCA (signingKey : String)
  | renewLeaf (signingKey : String)
  | createLeaf (signingKey : String)
  | mutatingGet (name : String)
  | mutatingUpdate (c : WebhookConfiguration)
  | validatingGet (name : String)
  | validatingUpdate (c : WebhookConfiguration)
  | fileWrite (p : String × String) (content : String)
  | logNotFoundSkip (name : String)
deriving DecidableEq, Repr

/-- renewCACertificate (certs source lines 86-118).  Go mutates the secret
through a pointer when it renews, so besides the trace and the Go return
value the embedding returns the post-call contents of the caller's secret
object. -/
def renewCACertificate (env : CryptoEnv) (client : KubeClient) (secret : Secret) :
    List CertAction × Except Err Secret × Secret :=
  match ParseCASecret secret with
  | Except.error e => ([], Except.error e, secret)
  | Except.ok pair =>
    match env.isExpiring pair.certificate with
    | Except.error e => ([], Except.error e, secret)
    | Except.ok false => ([], Except.ok secret, secret)
    | Except.ok true =>
      match env.parseECKey pair.privateKey with
      | Except.error e => ([], Except.error e, secret)
      | Except.ok privateKey =>
        match env.renewCert privateKey pair.certificate with
        | Except.error e => ([CertAction.renewCA privateKey], Except.error e, secret)
        | Except.ok newCert =>
          let mutated : Secret := { secret with data := setData secret.data "ca.crt" newCert }
          match client.updateSecret secret.ns mutated with
          | Except.error e =>
            ([CertAction.renewCA privateKey, CertAction.secretUpdate secret.ns mutated],
             Except.error e, mutated)
          | Except.ok updated =>
            ([CertAction.renewCA privateKey, CertAction.secretUpdate secret.ns mutated],
             Except.ok updated, mutated)

/-- EnsureRootCACertificate (certs source lines 55-82): get the CA secret;
when found, renew it if needed and return the original secret object (whose
ca.crt field the renewal may have overwritten in place), discarding the
record returned by the Update call; when absent, create a fresh CA and
create its secret; any other Get error aborts. -/
def EnsureRootCACertificate (env : CryptoEnv) (client : KubeClient) (ns name : String) :
    List CertAction × Except Err Secret :=
  match client.getSecret ns name with
  | Except.ok secret =>
    let r := renewCACertificate env client secret
    match r.2.1 with
    | Except.error e => (CertAction.secretGet ns name :: r.1, Except.error e)
    | Except.ok _ => (CertAction.secretGet ns name :: r.1, Except.ok r.2.2)
  | Except.error e =>
    if e.isNotFound then
      let secret := GenerateCASecret env.newCAPair ns name
      match client.createSecret ns secret with
      | Except.error e2 =>
        ([CertAction.secretGet ns name, CertAction.secretCreate ns secret], Except.error e2)
      | Except.ok created =>
        ([CertAction.secretGet ns name, CertAction.secretCreate ns secret], Except.ok created)
    else ([CertAction.secretGet ns name], Except.error e)

/-- renewServerCertificate (certs source lines 227-265): parse the leaf
secret, return it unchanged when not expiring; otherwise parse the CA
secret, parse its private key, re-sign the leaf certificate with it,
overwrite tls.crt and update the secret, returning the updated record. -/
def renewServerCertificate (env : CryptoEnv) (client : KubeClient)
    (caSecret : Secret) (secret : Secret) : List CertAction × Except Err Secret :=
  match ParseServerSecret secret with
  | Except.error e => ([], Except.error e)
  | Except.ok pair =>
    match env.isExpiring pair.certificate with
    | Except.error e => ([], Except.error e)
    | Except.ok false => ([], Except.ok secret)
    | Except.ok true =>
      match ParseCASecret caSecret with
      | Except.error e => ([], Except.error e)
      | Except.ok caPair =>
        match env.parseECKey caPair.privateKey with
        | Except.error e => ([], Except.error e)
        | Except.ok caPrivateKey =>
          match env.renewCert caPrivateKey pair.certificate with
          | Except.error e => ([CertAction.renewLeaf caPrivateKey], Except.error e)
          | Except.ok newCert =>
            let mutated : Secret := { secret with data := setData secret.data "tls.crt" newCert }
            match client.updateSecret secret.ns mutated with
            | Except.error e =>
              ([CertAction.renewLeaf caPrivateKey, CertAction.secretUpdate secret.ns mutated],
               Except.error e)
            | Except.ok updated =>
              ([CertAction.renewLeaf caPrivateKey, CertAction.secretUpdate secret.ns mutated],
               Except.ok updated)

/-- The webhook environment (certs source lines 29-52). -/
structure WebhookEnvironment where
  certDir : String
  caSecretName : String
  secretName : String
  serviceName : String
  operatorNamespace : String
  mutatingWebhookConfigurationName : String
  validatingWebhookConfigurationName : String
deriving DecidableEq, Repr

/-- EnsureCertificate (certs source lines 188-223): get the webhook secret;
when found, delegate to renewServerCertificate with the CA secret; when
absent, parse the CA secret, create and sign a leaf pair for the hostname
service.namespace.svc, and create the webhook secret. -/
def WebhookEnvironment.EnsureCertificate (webhook : WebhookEnvironment) (env : CryptoEnv)
    (client : KubeClient) (caSecret : Secret) : List CertAction × Except Err Secret :=
  match client.getSecret webhook.operatorNamespace webhook.secretName with
  | Except.ok secret =>
    let r := renewServerCertificate env client caSecret secret
    (CertAction.secretGet webhook.operatorNamespace webhook.secretName :: r.1, r.2)
  | Except.error e =>
    if e.isNotFound then
      match ParseCASecret caSecret with
      | Except.error e2 =>
        ([CertAction.secretGet webhook.operatorNamespace webhook.secretName], Except.error e2)
      | Except.ok caPair =>
        let webhookHostname := webhook.serviceName ++ "." ++ webhook.operatorNamespace ++ ".svc"
        match env.signLeaf caPair.privateKey webhookHostname with
        | Except.error e2 =>
          ([CertAction.secretGet webhook.operatorNamespace webhook.secretName,
            CertAction.createLeaf caPair.privateKey], Except.error e2)
        | Except.ok webhookPair =>
          let secret := GenerateServerSecret webhookPair webhook.operatorNamespace webhook.secretName
          match client.createSecret webhook.operatorNamespace secret with
          | Except.error e2 =>
            ([CertAction.secretGet webhook.operatorNamespace webhook.secretName,
              CertAction.createLeaf caPair.privateKey,
              CertAction.secretCreate webhook.operatorNamespace secret], Except.error e2)
          | Except.ok created =>
            ([CertAction.secretGet webhook.operatorNamespace webhook.secretName,
              CertAction.createLeaf caPair.privateKey,
              CertAction.secretCreate webhook.operatorNamespace secret], Except.ok created)
    else ([CertAction.secretGet webhook.operatorNamespace webhook.secretName], Except.error e)

/-- Contents and permission bits of one file. -/
structure FileData where
  content : String
  perm : Nat
deriving DecidableEq, Repr

/-- A path, represented as the pair of directory and file name; path.Join of
the certificate directory and a file name is embedded as this pair, which
keeps the join injective in the file name. -/
def pathJoin (dir name : String) : String × String := (dir, name)

def lookupFileAssoc : List ((String × String) × FileData) → String × String → Option FileData
  | [], _ => none
  | (k, v) :: rest, p => if k = p then some v else lookupFileAssoc rest p

def setFileAssoc : List ((String × String) × FileData) → String × String → FileData →
    List ((String × String) × FileData)
  | [], p, d => [(p, d)]
  | (k, v) :: rest, p, d =>
    if k = p then (k, d) :: rest else (k, v) :: setFileAssoc rest p d

/-- Modelled from the spec: the filesystem under the certificate directory
(fileutils and the standard library live outside the sources at hand), as a
path-indexed store plus a per-path write-failure oracle. -/
structure FS where
  files : List ((String × String) × FileData)
  writeErr : String × String → Option String

def FS.lookupFile (fs : FS) (p : String × String) : Option FileData :=
  lookupFileAssoc fs.files p

/-- fileutils.FileExists on the modelled filesystem. -/
def FS.fileExists (fs : FS) (p : String × String) : Bool :=
  (fs.lookupFile p).isSome

/-- fileutils.ReadFile on the modelled filesystem, empty on a missing file. -/
def FS.readFile (fs : FS) (p : String × String) : String :=
  match fs.lookupFile p with
  | some d => d.content
  | none => ""

/-- ioutil.WriteFile with mode 0600 on the modelled filesystem. -/
def FS.writeFile (fs : FS) (p : String × String) (c : String) : Except Err FS :=
  match fs.writeErr p with
  | some m => Except.error { isNotFound := false, msg := m }
  | none => Except.ok { fs with files := setFileAssoc fs.files p { content := c, perm := 0o600 } }

/-- The write loop of DumpSecretToDir (certs source lines 289-294): each
data field is written to a same-named file in the directory. -/
def dumpDataLoop (certDir : String) :
    FS → List (String × String) → List CertAction × FS × Option Err
  | fs, [] => ([], fs, none)
  | fs, (name, content) :: rest =>
    let fileName := pathJoin certDir name
    match fs.writeFile fileName content with
    | Except.error e => ([CertAction.fileWrite fileName content], fs, some e)
    | Except.ok fs2 =>
      let r := dumpDataLoop certDir fs2 rest
      (CertAction.fileWrite fileName content :: r.1, r.2.1, r.2.2)

/-- DumpSecretToDir (certs source lines 269-302): when the sentinel file
named resource exists and holds the resourceVersion of the secret, nothing
is written; otherwise every data field is written to a same-named file and
the sentinel is then overwritten with the new resourceVersion. -/
def DumpSecretToDir (secret : Secret) (certDir : String) (fs : FS) :
    List CertAction × FS × Option Err :=
  let resourceFileName := pathJoin certDir "resource"
  if fs.fileExists resourceFileName && (fs.readFile resourceFileName == secret.resourceVersion) then
    ([], fs, none)
  else
    let r := dumpDataLoop certDir fs secret.data
    match r.2.2 with
    | some e => (r.1, r.2.1, some e)
    | none =>
      match (r.2.1).writeFile resourceFileName secret.resourceVersion with
      | Except.error e =>
        (r.1 ++ [CertAction.fileWrite resourceFileName secret.resourceVersion], r.2.1, some e)
      | Except.ok fs2 =>
        (r.1 ++ [CertAction.fileWrite resourceFileName secret.resourceVersion], fs2, none)

/-- InjectPublicKeyIntoMutatingWebhook (certs source lines 306-320): fetch
the named mutating configuration, overwrite the CA-bundle field of every
webhook entry with the tls.crt bytes of the given secret, and update it. -/
def WebhookEnvironment.InjectPublicKeyIntoMutatingWebhook (webhook : WebhookEnvironment)
    (client : KubeClient) (tlsSecret : Secret) : List CertAction × Option Err :=
  match client.getMutating webhook.mutatingWebhookConfigurationName with
  | Except.error e =>
    ([CertAction.mutatingGet webhook.mutatingWebhookConfigurationName], some e)
  | Except.ok config =>
    let newConfig : WebhookConfiguration :=
      { config with
        webhooks := config.webhooks.map
          (fun w => { w with caBundle := getData tlsSecret.data "tls.crt" }) }
    match client.updateMutating newConfig with
    | Except.error e =>
      ([CertAction.mutatingGet webhook.mutatingWebhookConfigurationName,
        CertAction.mutatingUpdate newConfig], some e)
    | Except.ok _ =>
      ([CertAction.mutatingGet webhook.mutatingWebhookConfigurationName,
        CertAction.mutatingUpdate newConfig], none)

/-- InjectPublicKeyIntoValidatingWebhook (certs source lines 324-338): same
as the mutating variant, on the validating configuration. -/
def WebhookEnvironment.InjectPublicKeyIntoValidatingWebhook (webhook : WebhookEnvironment)
    (client : KubeClient) (tlsSecret : Secret) : List CertAction × Option Err :=
  match client.getValidating webhook.validatingWebhookConfigurationName with
  | Except.error e =>
    ([CertAction.validatingGet webhook.validatingWebhookConfigurationName], some e)
  | Except.ok config =>
    let newConfig : WebhookConfiguration :=
      { config with
        webhooks := config.webhooks.map
          (fun w => { w with caBundle := getData tlsSecret.data "tls.crt" }) }
    match client.updateValidating newConfig with
    | Except.error e =>
      ([CertAction.validatingGet webhook.validatingWebhookConfigurationName,
        CertAction.validatingUpdate newConfig], some e)
    | Except.ok _ =>
      ([CertAction.validatingGet webhook.validatingWebhookConfigurationName,
        CertAction.validatingUpdate newConfig], none)

/-- The five top-level steps of Setup, recorded in the order they start. -/
inductive SetupStep where
  | ensureAuthority
  | ensureLeafCertificate
  | materializeToDirectory
  | injectMutating
  | injectValidating
deriving DecidableEq, Repr

/-- The outcome of one Setup run: the steps that started, the calls issued,
the final filesystem and the returned error (none on success). -/
structure SetupRun where
  steps : List SetupStep
  acts : List CertAction
  fs : FS
  err : Option Err

/-- The tail of Setup from the validating injection on (certs source lines
152-162): a NotFound error from the injection is logged and swallowed, any
other error is returned. -/
def setupFromValidating (webhook : WebhookEnvironment) (client : KubeClient)
    (webhookSecret : Secret) (steps : List SetupStep) (acts : List CertAction)
    (fs : FS) : SetupRun :=
  let r5 := webhook.InjectPublicKeyIntoValidatingWebhook client webhookSecret
  match r5.2 with
  | some e =>
    if e.isNotFound then
      { steps := steps ++ [SetupStep.injectValidating],
        acts := acts ++ r5.1 ++
          [CertAction.logNotFoundSkip webhook.validatingWebhookConfigurationName],
        fs := fs, err := none }
    else
      { steps := steps ++ [SetupStep.injectValidating],
        acts := acts ++ r5.1, fs := fs, err := some e }
  | none =>
    { steps := steps ++ [SetupStep.injectValidating],
      acts := acts ++ r5.1, fs := fs, err := none }

/-- Setup (certs source lines 123-163): EnsureRootCACertificate, then
EnsureCertificate on its result, then DumpSecretToDir, then the mutating
and validating CA-bundle injections; the run returns the first error, except
that a NotFound error from either injection call is logged and skipped. -/
def WebhookEnvironment.Setup (webhook : WebhookEnvironment) (env : CryptoEnv)
    (client : KubeClient) (fs : FS) : SetupRun :=
  let r1 := EnsureRootCACertificate env client webhook.operatorNamespace webhook.caSecretName
  match r1.2 with
  | Except.error e =>
    { steps := [SetupStep.ensureAuthority], acts := r1.1, fs := fs, err := some e }
  | Except.ok caSecret =>
    let r2 := webhook.EnsureCertificate env client caSecret
    match r2.2 with
    | Except.error e =>
      { steps := [SetupStep.ensureAuthority, SetupStep.ensureLeafCertificate],
        acts := r1.1 ++ r2.1, fs := fs, err := some e }
    | Except.ok webhookSecret =>
      let r3 := DumpSecretToDir webhookSecret webhook.certDir fs
      match r3.2.2 with
      | some e =>
        { steps := [SetupStep.ensureAuthority, SetupStep.ensureLeafCertificate,
            SetupStep.materializeToDirectory],
          acts := r1.1 ++ r2.1 ++ r3.1, fs := r3.2.1, err := some e }
      | none =>
        let r4 := webhook.InjectPublicKeyIntoMutatingWebhook client webhookSecret
        match r4.2 with
        | some e =>
          if e.isNotFound then
            setupFromValidating webhook client webhookSecret
              [SetupStep.ensureAuthority, SetupStep.ensureLeafCertificate,
               SetupStep.materializeToDirectory, SetupStep.injectMutating]
              (r1.1 ++ r2.1 ++ r3.1 ++ r4.1 ++
               [CertAction.logNotFoundSkip webhook.mutatingWebhookConfigurationName])
              r3.2.1
          else
            { steps := [SetupStep.ensureAuthority, SetupStep.ensureLeafCertificate,
                SetupStep.materializeToDirectory, SetupStep.injectMutating],
              acts := r1.1 ++ r2.1 ++ r3.1 ++ r4.1, fs := r3.2.1, err := some e }
        | none =>
          setupFromValidating webhook client webhookSecret
            [SetupStep.ensureAuthority, SetupStep.ensureLeafCertificate,
             SetupStep.materializeToDirectory, SetupStep.injectMutating]
            (r1.1 ++ r2.1 ++ r3.1 ++ r4.1) r3.2.1

lemma lookupData_setData_same (d : List (String × String)) (k v : String) :
    lookupData (setData d k v) k = some v := by
  induction d with
  | nil => simp [setData, lookupData]
  | cons kv rest ih =>
    obtain ⟨k1, v1⟩ := kv
    by_cases h : k1 = k <;> simp [setData, lookupData, h, ih]

lemma lookupData_setData_other (d : List (String × String)) (k v k2 : String)
    (h : k2 ≠ k) :
    lookupData (setData d k v) k2 = lookupData d k2 := by
  have hne : ¬ (k = k2) := fun hEq => h hEq.symm
  induction d with
  | nil => simp [setData, lookupData, hne]
  | cons kv rest ih =>
    obtain ⟨k1, v1⟩ := kv
    by_cases h1 : k1 = k
    · cases h1
      simp [setData, lookupData, hne]
    · by_cases h2 : k1 = k2 <;> simp [setData, lookupData, h, h1, h2, ih]

/-- Claim C8: when the authority (or leaf) secret record already exists and
its certificate is not expiring, the ensure operation issues no store call
beyond the Get (in particular no Update) and returns the stored record with
byte-identical contents; ensure being deterministic in its oracles, a second
invocation under the same conditions returns the same bytes again. -/
theorem ensure_without_expiry_issues_no_update (env : CryptoEnv) (client : KubeClient) :
    (∀ ns nm s pair, client.getSecret ns nm = Except.ok s →
      ParseCASecret s = Except.ok pair →
      env.isExpiring pair.certificate = Except.ok false →
      EnsureRootCACertificate env client ns nm =
        ([CertAction.secretGet ns nm], Except.ok s)) ∧
    (∀ webhook : WebhookEnvironment, ∀ caSecret s pair,
      client.getSecret webhook.operatorNamespace webhook.secretName = Except.ok s →
      ParseServerSecret s = Except.ok pair →
      env.isExpiring pair.certificate = Except.ok false →
      webhook.EnsureCertificate env client caSecret =
        ([CertAction.secretGet webhook.operatorNamespace webhook.secretName],
         Except.ok s)) := by
  constructor
  · intro ns nm s pair hget hparse hexp
    simp [EnsureRootCACertificate, renewCACertificate, hget, hparse, hexp]
  · intro webhook caSecret s pair hget hparse hexp
    simp [WebhookEnvironment.EnsureCertificate, renewServerCertificate, hget, hparse, hexp]

def cCASecret : Secret :=
  { ns := "op-ns", name := "ca-secret", resourceVersion := "11",
    data := [("ca.crt", "ca-cert-bytes"), ("ca.key", "ca-key-bytes")] }

def cLeafSecret : Secret :=
  { ns := "op-ns", name := "leaf-secret", resourceVersion := "21",
    data := [("tls.crt", "leaf-cert-bytes"), ("tls.key", "leaf-key-bytes")] }

def cWebhookEnv : WebhookEnvironment :=
  { certDir := "certdir", caSecretName := "ca-secret", secretName := "leaf-secret",
    serviceName := "svc", operatorNamespace := "op-ns",
    mutatingWebhookConfigurationName := "mwc",
    validatingWebhookConfigurationName := "vwc" }

def cMutatingConfig : WebhookConfiguration :=
  { name := "mwc",
    webhooks := [{ name := "w1", caBundle := "old1", rest := "r1" },
                 { name := "w2", caBundle := "old2", rest := "r2" }] }

def cValidatingConfig : WebhookConfiguration :=
  { name := "vwc", webhooks := [{ name := "v1", caBundle := "old3", rest := "r3" }] }

/-- A crypto oracle under which nothing is expiring. -/
def cEnvStable : CryptoEnv :=
  { isExpiring := fun _ => Except.ok false,
    parseECKey := fun k => Except.ok ("parsed-" ++ k),
    renewCert := fun _ c => Except.ok (c ++ "+renewed"),
    newCAPair := { privateKey := "new-ca-key", certificate := "new-ca-cert" },
    signLeaf := fun k h =>
      Except.ok { privateKey := "leaf-key", certificate := "leaf-for-" ++ h ++ "-by-" ++ k } }

/-- A fully successful client serving both secrets and both webhook
configurations. -/
def cClient : KubeClient :=
  { getSecret := fun ns nm =>
      if ns = "op-ns" ∧ nm = "ca-secret" then Except.ok cCASecret
      else if ns = "op-ns" ∧ nm = "leaf-secret" then Except.ok cLeafSecret
      else Except.error { isNotFound := true, msg := "secret not found" },
    createSecret := fun _ s => Except.ok s,
    updateSecret := fun _ s => Except.ok { s with resourceVersion := s.resourceVersion ++ "+1" },
    getMutating := fun nm =>
      if nm = "mwc" then Except.ok cMutatingConfig
      else Except.error { isNotFound := true, msg := "config not found" },
    updateMutating := fun c => Except.ok c,
    getValidating := fun nm =>
      if nm = "vwc" then Except.ok cValidatingConfig
      else Except.error { isNotFound := true, msg := "config not found" },
    updateValidating := fun c => Except.ok c }

/-- Witness for claim C8 at the concrete stable environment. -/
theorem ensure_without_expiry_issues_no_update_instance :
    cClient.getSecret "op-ns" "ca-secret" = Except.ok cCASecret ∧
    ParseCASecret cCASecret =
      Except.ok { privateKey := "ca-key-bytes", certificate := "ca-cert-bytes" } ∧
    cEnvStable.isExpiring "ca-cert-bytes" = Except.ok false ∧
    EnsureRootCACertificate cEnvStable cClient "op-ns" "ca-secret" =
      ([CertAction.secretGet "op-ns" "ca-secret"], Except.ok cCASecret) :=
  ⟨rfl, rfl, rfl,
   (ensure_without_expiry_issues_no_update cEnvStable cClient).1 "op-ns" "ca-secret"
     cCASecret { privateKey := "ca-key-bytes", certificate := "ca-cert-bytes" }
     rfl rfl rfl⟩

/-- Claim C10: when the CA secret exists and its certificate is expiring,
EnsureRootCACertificate returns the secret object it originally read with
its ca.crt data field overwritten in place by the renewed certificate, its
ca.key field unchanged and its resourceVersion still the pre-update token;
the record returned by the Update call (u below, arbitrary) is discarded. -/
theorem ensure_root_ca_returns_pre_update_secret
    (env : CryptoEnv) (client : KubeClient) (ns nm : String) (s : Secret)
    (pair : KeyPair) (pk newCert : String) (u : Secret)
    (hget : client.getSecret ns nm = Except.ok s)
    (hparse : ParseCASecret s = Except.ok pair)
    (hexp : env.isExpiring pair.certificate = Except.ok true)
    (hkey : env.parseECKey pair.privateKey = Except.ok pk)
    (hrenew : env.renewCert pk pair.certificate = Except.ok newCert)
    (hupd : client.updateSecret s.ns { s with data := setData s.data "ca.crt" newCert } =
      Except.ok u) :
    (EnsureRootCACertificate env client ns nm).2 =
      Except.ok { s with data := setData s.data "ca.crt" newCert } ∧
    ({ s with data := setData s.data "ca.crt" newCert } : Secret).resourceVersion =
      s.resourceVersion ∧
    lookupData (setData s.data "ca.crt" newCert) "ca.crt" = some newCert ∧
    (∀ k2, k2 ≠ "ca.crt" →
      lookupData (setData s.data "ca.crt" newCert) k2 = lookupData s.data k2) := by
  refine ⟨?_, rfl, lookupData_setData_same s.data "ca.crt" newCert,
    fun k2 h2 => lookupData_setData_other s.data "ca.crt" newCert k2 h2⟩
  simp [EnsureRootCACertificate, renewCACertificate, hget, hparse, hexp, hkey, hrenew, hupd]

/-- A crypto oracle under which every certificate is expiring. -/
def cEnvExpiring : CryptoEnv :=
  { isExpiring := fun _ => Except.ok true,
    parseECKey := fun k => Except.ok ("parsed-" ++ k),
    renewCert := fun _ c => Except.ok (c ++ "+renewed"),
    newCAPair := { privateKey := "new-ca-key", certificate := "new-ca-cert" },
    signLeaf := fun k h =>
      Except.ok { privateKey := "leaf-key", certificate := "leaf-for-" ++ h ++ "-by-" ++ k } }

/-- Witness for claim C10 at the concrete expiring environment. -/
theorem ensure_root_ca_returns_pre_update_secret_instance :
    cClient.getSecret "op-ns" "ca-secret" = Except.ok cCASecret ∧
    cEnvExpiring.isExpiring "ca-cert-bytes" = Except.ok true ∧
    ((EnsureRootCACertificate cEnvExpiring cClient "op-ns" "ca-secret").2 =
      Except.ok { cCASecret with
        data := setData cCASecret.data "ca.crt" "ca-cert-bytes+renewed" } ∧
     ({ cCASecret with
        data := setData cCASecret.data "ca.crt" "ca-cert-bytes+renewed" } : Secret).resourceVersion =
       cCASecret.resourceVersion ∧
     lookupData (setData cCASecret.data "ca.crt" "ca-cert-bytes+renewed") "ca.crt" =
       some "ca-cert-bytes+renewed" ∧
     (∀ k2, k2 ≠ "ca.crt" →
       lookupData (setData cCASecret.data "ca.crt" "ca-cert-bytes+renewed") k2 =
         lookupData cCASecret.data k2)) :=
  ⟨rfl, rfl,
   ensure_root_ca_returns_pre_update_secret cEnvExpiring cClient "op-ns" "ca-secret"
     cCASecret { privateKey := "ca-key-bytes", certificate := "ca-cert-bytes" }
     "parsed-ca-key-bytes" "ca-cert-bytes+renewed"
     { cCASecret with
       data := setData cCASecret.data "ca.crt" "ca-cert-bytes+renewed",
       resourceVersion := "11+1" }
     rfl rfl rfl rfl rfl rfl⟩

lemma renewLeaf_not_in_renewCA (env : CryptoEnv) (client : KubeClient)
    (secret : Secret) (k : String) :
    CertAction.renewLeaf k ∉ (renewCACertificate env client secret).1 := by
  intro h
  simp only [renewCACertificate] at h
  repeat' split at h
  all_goals simp at h

lemma renewLeaf_not_in_ensureRootCA (env : CryptoEnv) (client : KubeClient)
    (ns nm : String) (k : String) :
    CertAction.renewLeaf k ∉ (EnsureRootCACertificate env client ns nm).1 := by
  intro h
  simp only [EnsureRootCACertificate] at h
  repeat' split at h
  all_goals simp [renewLeaf_not_in_renewCA] at h

lemma dumpDataLoop_trace_shape (certDir : String) :
    ∀ (data : List (String × String)) (fs : FS) (a : CertAction),
      a ∈ (dumpDataLoop certDir fs data).1 → ∃ p c, a = CertAction.fileWrite p c := by
  intro data
  induction data with
  | nil => intro fs a h; simp [dumpDataLoop] at h
  | cons kv rest ih =>
    intro fs a h
    obtain ⟨name, content⟩ := kv
    simp only [dumpDataLoop] at h
    cases hw : fs.writeFile (pathJoin certDir name) content with
    | error e =>
      rw [hw] at h
      simp at h
      exact ⟨pathJoin certDir name, content, h⟩
    | ok fs2 =>
      rw [hw] at h
      simp at h
      cases h with
      | inl h1 => exact ⟨pathJoin certDir name, content, h1⟩
      | inr h2 => exact ih fs2 a h2

lemma dump_trace_shape (secret : Secret) (certDir : String) (fs : FS) (a : CertAction) :
    a ∈ (DumpSecretToDir secret certDir fs).1 → ∃ p c, a = CertAction.fileWrite p c := by
  intro h
  simp only [DumpSecretToDir] at h
  by_cases hskip :
      (fs.fileExists (pathJoin certDir "resource") &&
        (fs.readFile (pathJoin certDir "resource") == secret.resourceVersion)) = true
  · rw [if_pos hskip] at h
    simp at h
  · rw [if_neg hskip] at h
    cases hl : (dumpDataLoop certDir fs secret.data).2.2 with
    | some e =>
      rw [hl] at h
      exact dumpDataLoop_trace_shape certDir secret.data fs a h
    | none =>
      rw [hl] at h
      cases hw : ((dumpDataLoop certDir fs secret.data).2.1).writeFile
          (pathJoin certDir "resource") secret.resourceVersion with
      | error e =>
        rw [hw] at h
        simp at h
        cases h with
        | inl h1 => exact dumpDataLoop_trace_shape certDir secret.data fs a h1
        | inr h2 => exact ⟨pathJoin certDir "resource", secret.resourceVersion, h2⟩
      | ok fs2 =>
        rw [hw] at h
        simp at h
        cases h with
        | inl h1 => exact dumpDataLoop_trace_shape certDir secret.data fs a h1
        | inr h2 => exact ⟨pathJoin certDir "resource", secret.resourceVersion, h2⟩

lemma renewLeaf_not_in_dump (secret : Secret) (certDir : String) (fs : FS) (k : String) :
    CertAction.renewLeaf k ∉ (DumpSecretToDir secret certDir fs).1 := by
  intro h
  obtain ⟨p, c, habs⟩ := dump_trace_shape secret certDir fs _ h
  simp at habs

lemma renewLeaf_not_in_injectMutating (webhook : WebhookEnvironment)
    (client : KubeClient) (ts : Secret) (k : String) :
    CertAction.renewLeaf k ∉ (webhook.InjectPublicKeyIntoMutatingWebhook client ts).1 := by
  intro h
  simp only [WebhookEnvironment.InjectPublicKeyIntoMutatingWebhook] at h
  repeat' split at h
  all_goals simp at h

lemma renewLeaf_not_in_injectValidating (webhook : WebhookEnvironment)
    (client : KubeClient) (ts : Secret) (k : String) :
    CertAction.renewLeaf k ∉ (webhook.InjectPublicKeyIntoValidatingWebhook client ts).1 := by
  intro h
  simp only [WebhookEnvironment.InjectPublicKeyIntoValidatingWebhook] at h
  repeat' split at h
  all_goals simp at h

lemma renewLeaf_in_renewServer (env : CryptoEnv) (client : KubeClient)
    (caSecret secret : Secret) (k : String)
    (h : CertAction.renewLeaf k ∈ (renewServerCertificate env client caSecret secret).1) :
    ∃ caPair, ParseCASecret caSecret = Except.ok caPair ∧
      env.parseECKey caPair.privateKey = Except.ok k := by
  simp only [renewServerCertificate] at h
  cases hps : ParseServerSecret secret with
  | error e => simp only [hps] at h; simp at h
  | ok pair =>
    simp only [hps] at h
    cases hexp : env.isExpiring pair.certificate with
    | error e => simp only [hexp] at h; simp at h
    | ok b =>
      simp only [hexp] at h
      cases b with
      | false => simp at h
      | true =>
        cases hca : ParseCASecret caSecret with
        | error e => simp only [hca] at h; simp at h
        | ok caPair =>
          simp only [hca] at h
          cases hk : env.parseECKey caPair.privateKey with
          | error e => simp only [hk] at h; simp at h
          | ok caPrivateKey =>
            simp only [hk] at h
            refine ⟨caPair, rfl, ?_⟩
            rw [hk]
            cases hr : env.renewCert caPrivateKey pair.certificate with
            | error e =>
              simp only [hr] at h
              simp at h
              rw [h]
            | ok newCert =>
              simp only [hr] at h
              cases hu : client.updateSecret secret.ns
                  { secret with data := setData secret.data "tls.crt" newCert } with
              | error e =>
                simp only [hu] at h
                simp at h
                rw [h]
              | ok updated =>
                simp only [hu] at h
                simp at h
                rw [h]

lemma renewLeaf_in_ensureCertificate (webhook : WebhookEnvironment) (env : CryptoEnv)
    (client : KubeClient) (caSecret : Secret) (k : String)
    (h : CertAction.renewLeaf k ∈ (webhook.EnsureCertificate env client caSecret).1) :
    ∃ caPair, ParseCASecret caSecret = Except.ok caPair ∧
      env.parseECKey caPair.privateKey = Except.ok k := by
  simp only [WebhookEnvironment.EnsureCertificate] at h
  cases hg : client.getSecret webhook.operatorNamespace webhook.secretName with
  | ok secret =>
    simp only [hg] at h
    simp at h
    exact renewLeaf_in_renewServer env client caSecret secret k h
  | error e =>
    simp only [hg] at h
    by_cases hnf : e.isNotFound = true
    · rw [if_pos hnf] at h
      cases hca : ParseCASecret caSecret with
      | error e2 => simp only [hca] at h; simp at h
      | ok caPair =>
        simp only [hca] at h
        cases hs : env.signLeaf caPair.privateKey
            (webhook.serviceName ++ "." ++ webhook.operatorNamespace ++ ".svc") with
        | error e2 => simp only [hs] at h; simp at h
        | ok webhookPair =>
          simp only [hs] at h
          cases hc : client.createSecret webhook.operatorNamespace
              (GenerateServerSecret webhookPair webhook.operatorNamespace webhook.secretName) with
          | error e2 => simp only [hc] at h; simp at h
          | ok created => simp only [hc] at h; simp at h
    · rw [if_neg hnf] at h
      simp at h

lemma renewLeaf_in_setupFromValidating (webhook : WebhookEnvironment) (client : KubeClient)
    (ws : Secret) (steps : List SetupStep) (acts : List CertAction) (fs : FS) (k : String)
    (h : CertAction.renewLeaf k ∈ (setupFromValidating webhook client ws steps acts fs).acts) :
    CertAction.renewLeaf k ∈ acts := by
  simp only [setupFromValidating] at h
  cases h5 : (webhook.InjectPublicKeyIntoValidatingWebhook client ws).2 with
  | some e =>
    simp only [h5] at h
    by_cases hnf : e.isNotFound = true
    · rw [if_pos hnf] at h
      simp [renewLeaf_not_in_injectValidating] at h
      exact h
    · rw [if_neg hnf] at h
      simp [renewLeaf_not_in_injectValidating] at h
      exact h
  | none =>
    simp only [h5] at h
    simp [renewLeaf_not_in_injectValidating] at h
    exact h

/-- Claim C9: whenever the leaf certificate is renewed during a Setup run,
the signing key handed to RenewCertificate is the authority private key
parsed fresh from the authority secret that EnsureRootCACertificate (step 1
of the same run) returned, never a stale copy. -/
theorem leaf_renewal_signs_with_current_authority_key
    (webhook : WebhookEnvironment) (env : CryptoEnv) (client : KubeClient) (fs : FS)
    (caSecret : Secret) (k : String)
    (hca : (EnsureRootCACertificate env client webhook.operatorNamespace
      webhook.caSecretName).2 = Except.ok caSecret)
    (hmem : CertAction.renewLeaf k ∈ (webhook.Setup env client fs).acts) :
    ∃ caPair, ParseCASecret caSecret = Except.ok caPair ∧
      env.parseECKey caPair.privateKey = Except.ok k := by
  simp only [WebhookEnvironment.Setup] at hmem
  simp only [hca] at hmem
  cases h2 : (webhook.EnsureCertificate env client caSecret).2 with
  | error e =>
    simp only [h2] at hmem
    simp [renewLeaf_not_in_ensureRootCA] at hmem
    exact renewLeaf_in_ensureCertificate webhook env client caSecret k hmem
  | ok webhookSecret =>
    simp only [h2] at hmem
    cases h3 : (DumpSecretToDir webhookSecret webhook.certDir fs).2.2 with
    | some e =>
      simp only [h3] at hmem
      simp [renewLeaf_not_in_ensureRootCA, renewLeaf_not_in_dump] at hmem
      exact renewLeaf_in_ensureCertificate webhook env client caSecret k hmem
    | none =>
      simp only [h3] at hmem
      cases h4 : (webhook.InjectPublicKeyIntoMutatingWebhook client webhookSecret).2 with
      | some e =>
        simp only [h4] at hmem
        by_cases hnf : e.isNotFound = true
        · rw [if_pos hnf] at hmem
          have hmem2 := renewLeaf_in_setupFromValidating _ _ _ _ _ _ _ hmem
          simp [renewLeaf_not_in_ensureRootCA, renewLeaf_not_in_dump,
            renewLeaf_not_in_injectMutating] at hmem2
          exact renewLeaf_in_ensureCertificate webhook env client caSecret k hmem2
        · rw [if_neg hnf] at hmem
          simp [renewLeaf_not_in_ensureRootCA, renewLeaf_not_in_dump,
            renewLeaf_not_in_injectMutating] at hmem
          exact renewLeaf_in_ensureCertificate webhook env client caSecret k hmem
      | none =>
        simp only [h4] at hmem
        have hmem2 := renewLeaf_in_setupFromValidating _ _ _ _ _ _ _ hmem
        simp [renewLeaf_not_in_ensureRootCA, renewLeaf_not_in_dump,
          renewLeaf_not_in_injectMutating] at hmem2
        exact renewLeaf_in_ensureCertificate webhook env client caSecret k hmem2

/-- The authority secret as EnsureRootCACertificate returns it after an
in-place renewal under cEnvExpiring. -/
def cRenewedCASecret : Secret :=
  { cCASecret with data := setData cCASecret.data "ca.crt" "ca-cert-bytes+renewed" }

/-- An empty filesystem whose writes all succeed. -/
def cFS : FS := { files := [], writeErr := fun _ => none }

/-- Witness for claim C9 at the concrete expiring run. -/
theorem leaf_renewal_signs_with_current_authority_key_instance :
    (EnsureRootCACertificate cEnvExpiring cClient cWebhookEnv.operatorNamespace
        cWebhookEnv.caSecretName).2 = Except.ok cRenewedCASecret ∧
    CertAction.renewLeaf "parsed-ca-key-bytes" ∈
      (cWebhookEnv.Setup cEnvExpiring cClient cFS).acts ∧
    (∃ caPair, ParseCASecret cRenewedCASecret = Except.ok caPair ∧
      cEnvExpiring.parseECKey caPair.privateKey = Except.ok "parsed-ca-key-bytes") :=
  ⟨rfl, by decide,
   leaf_renewal_signs_with_current_authority_key cWebhookEnv cEnvExpiring cClient cFS
     cRenewedCASecret "parsed-ca-key-bytes" rfl (by decide)⟩

/-- Claim C5 is false on the code in one respect: the bytes written into the
CA-bundle field are not the authority public certificate bytes (ca.crt of
the CA secret) but the tls.crt bytes of the leaf webhook secret.  In the
concrete successful Setup run below the CA certificate is "ca-cert-bytes",
yet every CA-bundle field of both updated configurations receives
"leaf-cert-bytes", the leaf certificate. -/
theorem inject_writes_leaf_certificate_bytes :
    lookupData cCASecret.data "ca.crt" = some "ca-cert-bytes" ∧
    lookupData cLeafSecret.data "tls.crt" = some "leaf-cert-bytes" ∧
    (cWebhookEnv.Setup cEnvStable cClient cFS).acts =
      [CertAction.secretGet "op-ns" "ca-secret",
       CertAction.secretGet "op-ns" "leaf-secret",
       CertAction.fileWrite ("certdir", "tls.crt") "leaf-cert-bytes",
       CertAction.fileWrite ("certdir", "tls.key") "leaf-key-bytes",
       CertAction.fileWrite ("certdir", "resource") "21",
       CertAction.mutatingGet "mwc",
       CertAction.mutatingUpdate
         { name := "mwc",
           webhooks := [{ name := "w1", caBundle := "leaf-cert-bytes", rest := "r1" },
                        { name := "w2", caBundle := "leaf-cert-bytes", rest := "r2" }] },
       CertAction.validatingGet "vwc",
       CertAction.validatingUpdate
         { name := "vwc",
           webhooks := [{ name := "v1", caBundle := "leaf-cert-bytes", rest := "r3" }] }] ∧
    "leaf-cert-bytes" ≠ "ca-cert-bytes" := by
  refine ⟨rfl, rfl, ?_, by decide⟩
  decide

/-- Claim C5 amended: CA-bundle injection overwrites the CA-bundle byte
field of every entry of the named admission configuration with the tls.crt
bytes of the secret handed to the injection (under Setup that is the leaf
webhook secret, not the authority secret), and leaves the configuration
name and every other field of each webhook entry unchanged; the resulting
configuration is what is handed to the update call. -/
theorem inject_overwrites_every_caBundle (webhook : WebhookEnvironment)
    (client : KubeClient) (tlsSecret : Secret) :
    (∀ config, client.getMutating webhook.mutatingWebhookConfigurationName = Except.ok config →
      ∃ newConfig,
        (webhook.InjectPublicKeyIntoMutatingWebhook client tlsSecret).1 =
          [CertAction.mutatingGet webhook.mutatingWebhookConfigurationName,
           CertAction.mutatingUpdate newConfig] ∧
        newConfig.name = config.name ∧
        newConfig.webhooks.length = config.webhooks.length ∧
        (∀ i, (h1 : i < newConfig.webhooks.length) → (h2 : i < config.webhooks.length) →
          (newConfig.webhooks[i]).caBundle = getData tlsSecret.data "tls.crt" ∧
          (newConfig.webhooks[i]).name = (config.webhooks[i]).name ∧
          (newConfig.webhooks[i]).rest = (config.webhooks[i]).rest)) ∧
    (∀ config, client.getValidating webhook.validatingWebhookConfigurationName = Except.ok config →
      ∃ newConfig,
        (webhook.InjectPublicKeyIntoValidatingWebhook client tlsSecret).1 =
          [CertAction.validatingGet webhook.validatingWebhookConfigurationName,
           CertAction.validatingUpdate newConfig] ∧
        newConfig.name = config.name ∧
        newConfig.webhooks.length = config.webhooks.length ∧
        (∀ i, (h1 : i < newConfig.webhooks.length) → (h2 : i < config.webhooks.length) →
          (newConfig.webhooks[i]).caBundle = getData tlsSecret.data "tls.crt" ∧
          (newConfig.webhooks[i]).name = (config.webhooks[i]).name ∧
          (newConfig.webhooks[i]).rest = (config.webhooks[i]).rest)) := by
  constructor
  · intro config hget
    refine ⟨{ config with
        webhooks := config.webhooks.map
          (fun w => { w with caBundle := getData tlsSecret.data "tls.crt" }) }, ?_, rfl, ?_, ?_⟩
    · simp only [WebhookEnvironment.InjectPublicKeyIntoMutatingWebhook, hget]
      cases hu : client.updateMutating { config with
          webhooks := config.webhooks.map
            (fun w => { w with caBundle := getData tlsSecret.data "tls.crt" }) } <;>
        simp [hu]
    · simp
    · intro i h1 h2
      simp [List.getElem_map]
  · intro config hget
    refine ⟨{ config with
        webhooks := config.webhooks.map
          (fun w => { w with caBundle := getData tlsSecret.data "tls.crt" }) }, ?_, rfl, ?_, ?_⟩
    · simp only [WebhookEnvironment.InjectPublicKeyIntoValidatingWebhook, hget]
      cases hu : client.updateValidating { config with
          webhooks := config.webhooks.map
            (fun w => { w with caBundle := getData tlsSecret.data "tls.crt" }) } <;>
        simp [hu]
    · simp
    · intro i h1 h2
      simp [List.getElem_map]

/-- Witness for the amended claim C5 at the concrete configurations. -/
theorem inject_overwrites_every_caBundle_instance :
    cClient.getMutating cWebhookEnv.mutatingWebhookConfigurationName =
      Except.ok cMutatingConfig ∧
    (∃ newConfig,
      (cWebhookEnv.InjectPublicKeyIntoMutatingWebhook cClient cLeafSecret).1 =
        [CertAction.mutatingGet cWebhookEnv.mutatingWebhookConfigurationName,
         CertAction.mutatingUpdate newConfig] ∧
      newConfig.name = cMutatingConfig.name ∧
      newConfig.webhooks.length = cMutatingConfig.webhooks.length ∧
      (∀ i, (h1 : i < newConfig.webhooks.length) →
        (h2 : i < cMutatingConfig.webhooks.length) →
        (newConfig.webhooks[i]).caBundle = getData cLeafSecret.data "tls.crt" ∧
        (newConfig.webhooks[i]).name = (cMutatingConfig.webhooks[i]).name ∧
        (newConfig.webhooks[i]).rest = (cMutatingConfig.webhooks[i]).rest)) :=
  ⟨rfl,
   (inject_overwrites_every_caBundle cWebhookEnv cClient cLeafSecret).1 cMutatingConfig rfl⟩

lemma lookupFileAssoc_setFileAssoc_same (d : List ((String × String) × FileData))
    (p : String × String) (fd : FileData) :
    lookupFileAssoc (setFileAssoc d p fd) p = some fd := by
  induction d with
  | nil => simp [setFileAssoc, lookupFileAssoc]
  | cons kv rest ih =>
    obtain ⟨k1, v1⟩ := kv
    by_cases h : k1 = p <;> simp [setFileAssoc, lookupFileAssoc, h, ih]

lemma lookupFileAssoc_setFileAssoc_other (d : List ((String × String) × FileData))
    (p : String × String) (fd : FileData) (p2 : String × String) (h : p2 ≠ p) :
    lookupFileAssoc (setFileAssoc d p fd) p2 = lookupFileAssoc d p2 := by
  have hne : ¬ (p = p2) := fun hEq => h hEq.symm
  induction d with
  | nil => simp [setFileAssoc, lookupFileAssoc, hne]
  | cons kv rest ih =>
    obtain ⟨k1, v1⟩ := kv
    by_cases h1 : k1 = p
    · cases h1
      simp [setFileAssoc, lookupFileAssoc, hne]
    · by_cases h2 : k1 = p2 <;> simp [setFileAssoc, lookupFileAssoc, h, h1, h2, ih]

lemma dumpDataLoop_props (certDir : String) :
    ∀ (data : List (String × String)) (fs : FS),
      (∀ p, fs.writeErr p = none) → (data.map Prod.fst).Nodup →
      (dumpDataLoop certDir fs data).2.2 = none ∧
      (dumpDataLoop certDir fs data).1 =
        data.map (fun kv => CertAction.fileWrite (pathJoin certDir kv.1) kv.2) ∧
      (∀ kv, kv ∈ data →
        ((dumpDataLoop certDir fs data).2.1).lookupFile (pathJoin certDir kv.1) =
          some { content := kv.2, perm := 0o600 }) ∧
      (∀ p, (∀ kv, kv ∈ data → pathJoin certDir kv.1 ≠ p) →
        ((dumpDataLoop certDir fs data).2.1).lookupFile p = fs.lookupFile p) ∧
      (∀ p, ((dumpDataLoop certDir fs data).2.1).writeErr p = fs.writeErr p) := by
  intro data
  induction data with
  | nil =>
    intro fs hw hnd
    simp [dumpDataLoop]
  | cons kv rest ih =>
    intro fs hw hnd
    obtain ⟨name, content⟩ := kv
    simp only [List.map_cons, List.nodup_cons] at hnd
    obtain ⟨hnotin, hndrest⟩ := hnd
    have hwf : fs.writeFile (pathJoin certDir name) content =
        Except.ok (FS.mk
          (setFileAssoc fs.files (pathJoin certDir name) (FileData.mk content 0o600))
          fs.writeErr) := by
      simp [FS.writeFile, hw]
    have hw2 : ∀ p, (FS.mk
        (setFileAssoc fs.files (pathJoin certDir name) (FileData.mk content 0o600))
        fs.writeErr).writeErr p = none := hw
    obtain ⟨ih1, ih2, ih3, ih4, ih5⟩ := ih _ hw2 hndrest
    refine ⟨?_, ?_, ?_, ?_, ?_⟩
    · simp only [dumpDataLoop, hwf]
      exact ih1
    · simp only [dumpDataLoop, hwf, List.map_cons]
      simp [ih2]
    · intro kv2 hm
      simp only [dumpDataLoop, hwf]
      rcases List.mem_cons.mp hm with hm1 | hm2
      · cases hm1
        have hfar : ∀ kv3, kv3 ∈ rest → pathJoin certDir kv3.1 ≠ pathJoin certDir name := by
          intro kv3 hm3 hEq
          apply hnotin
          have : kv3.1 = name := by
            simpa [pathJoin, Prod.ext_iff] using hEq
          rw [← this]
          exact List.mem_map_of_mem _ hm3
        rw [ih4 _ hfar]
        simp [FS.lookupFile, lookupFileAssoc_setFileAssoc_same]
      · exact ih3 kv2 hm2
    · intro p hp
      simp only [dumpDataLoop, hwf]
      have hp2 : ∀ kv3, kv3 ∈ rest → pathJoin certDir kv3.1 ≠ p := by
        intro kv3 hm3
        exact hp kv3 (List.mem_cons_of_mem _ hm3)
      rw [ih4 p hp2]
      have hne : p ≠ pathJoin certDir name := by
        intro hEq
        exact hp (name, content) (List.mem_cons_self _ _) hEq.symm
      simp [FS.lookupFile, lookupFileAssoc_setFileAssoc_other _ _ _ _ hne]
    · intro p
      simp only [dumpDataLoop, hwf]
      exact ih5 p

lemma dump_ok_sentinel (secret : Secret) (certDir : String) (fs : FS)
    (h : (DumpSecretToDir secret certDir fs).2.2 = none) :
    ((DumpSecretToDir secret certDir fs).2.1).fileExists (pathJoin certDir "resource") = true ∧
    ((DumpSecretToDir secret certDir fs).2.1).readFile (pathJoin certDir "resource") =
      secret.resourceVersion := by
  by_cases hskip : (fs.fileExists (pathJoin certDir "resource") &&
      (fs.readFile (pathJoin certDir "resource") == secret.resourceVersion)) = true
  · simp only [DumpSecretToDir, if_pos hskip]
    simpa using hskip
  · simp only [DumpSecretToDir, if_neg hskip] at h ⊢
    cases hl : (dumpDataLoop certDir fs secret.data).2.2 with
    | some e => simp [hl] at h
    | none =>
      simp only [hl] at h ⊢
      cases hw : ((dumpDataLoop certDir fs secret.data).2.1).writeFile
          (pathJoin certDir "resource") secret.resourceVersion with
      | error e => simp [hw] at h
      | ok fs2 =>
        simp only [hw]
        simp only [FS.writeFile] at hw
        cases hwe : ((dumpDataLoop certDir fs secret.data).2.1).writeErr
            (pathJoin certDir "resource") with
        | some m => rw [hwe] at hw; simp at hw
        | none =>
          rw [hwe] at hw
          simp at hw
          rw [← hw]
          simp [FS.fileExists, FS.readFile, FS.lookupFile, lookupFileAssoc_setFileAssoc_same]

/-- Claim C6: filesystem materialization is a no-op (writes no file, leaves
the filesystem unchanged) when the sentinel file named resource exists in
the directory with content equal to the resourceVersion of the secret;
otherwise it writes every data field to a same-named file with owner-only
read and write permission (mode 0600) and afterwards overwrites the
sentinel with the new resourceVersion; consequently calling it twice with
an unchanged resourceVersion writes data files only on the first call and
leaves the sentinel matching the resourceVersion. -/
theorem dump_secret_idempotent_materialization :
    (∀ (secret : Secret) (dir : String) (fs : FS),
      fs.fileExists (pathJoin dir "resource") = true →
      fs.readFile (pathJoin dir "resource") = secret.resourceVersion →
      DumpSecretToDir secret dir fs = ([], fs, none)) ∧
    (∀ (secret : Secret) (dir : String) (fs : FS),
      (fs.fileExists (pathJoin dir "resource") &&
        (fs.readFile (pathJoin dir "resource") == secret.resourceVersion)) = false →
      (∀ p, fs.writeErr p = none) →
      (secret.data.map Prod.fst).Nodup →
      (∀ kv, kv ∈ secret.data → kv.1 ≠ "resource") →
      (DumpSecretToDir secret dir fs).2.2 = none ∧
      (DumpSecretToDir secret dir fs).1 =
        secret.data.map (fun kv => CertAction.fileWrite (pathJoin dir kv.1) kv.2) ++
          [CertAction.fileWrite (pathJoin dir "resource") secret.resourceVersion] ∧
      (∀ kv, kv ∈ secret.data →
        ((DumpSecretToDir secret dir fs).2.1).lookupFile (pathJoin dir kv.1) =
          some { content := kv.2, perm := 0o600 }) ∧
      ((DumpSecretToDir secret dir fs).2.1).lookupFile (pathJoin dir "resource") =
        some { content := secret.resourceVersion, perm := 0o600 }) ∧
    (∀ (secret : Secret) (dir : String) (fs : FS),
      (DumpSecretToDir secret dir fs).2.2 = none →
      DumpSecretToDir secret dir ((DumpSecretToDir secret dir fs).2.1) =
        ([], (DumpSecretToDir secret dir fs).2.1, none)) := by
  have hskipcase : ∀ (secret : Secret) (dir : String) (fs : FS),
      fs.fileExists (pathJoin dir "resource") = true →
      fs.readFile (pathJoin dir "resource") = secret.resourceVersion →
      DumpSecretToDir secret dir fs = ([], fs, none) := by
    intro secret dir fs hex hrd
    have hcond : (fs.fileExists (pathJoin dir "resource") &&
        (fs.readFile (pathJoin dir "resource") == secret.resourceVersion)) = true := by
      simp [hex, hrd]
    simp [DumpSecretToDir, hcond]
  refine ⟨hskipcase, ?_, ?_⟩
  · intro secret dir fs hskip hw hnd hnr
    obtain ⟨hp1, hp2, hp3, hp4, hp5⟩ := dumpDataLoop_props dir secret.data fs hw hnd
    have hwe : ((dumpDataLoop dir fs secret.data).2.1).writeErr (pathJoin dir "resource") =
        none := by rw [hp5]; exact hw _
    have hsw : ((dumpDataLoop dir fs secret.data).2.1).writeFile
        (pathJoin dir "resource") secret.resourceVersion =
        Except.ok (FS.mk
          (setFileAssoc ((dumpDataLoop dir fs secret.data).2.1).files
            (pathJoin dir "resource") (FileData.mk secret.resourceVersion 0o600))
          ((dumpDataLoop dir fs secret.data).2.1).writeErr) := by
      simp [FS.writeFile, hwe]
    have hnc : ¬ ((fs.fileExists (pathJoin dir "resource") &&
        (fs.readFile (pathJoin dir "resource") == secret.resourceVersion)) = true) := by
      simp [hskip]
    have hDump : DumpSecretToDir secret dir fs =
        ((dumpDataLoop dir fs secret.data).1 ++
          [CertAction.fileWrite (pathJoin dir "resource") secret.resourceVersion],
         FS.mk
           (setFileAssoc ((dumpDataLoop dir fs secret.data).2.1).files
             (pathJoin dir "resource") (FileData.mk secret.resourceVersion 0o600))
           ((dumpDataLoop dir fs secret.data).2.1).writeErr,
         none) := by
      simp only [DumpSecretToDir, if_neg hnc, hp1, hsw]
    refine ⟨?_, ?_, ?_, ?_⟩
    · rw [hDump]
    · rw [hDump, hp2]
    · intro kv hm
      have hne : pathJoin dir "resource" ≠ pathJoin dir kv.1 := by
        intro hEq
        exact hnr kv hm (by simpa [pathJoin, Prod.ext_iff] using hEq.symm)
      rw [hDump]
      simp only [FS.lookupFile]
      rw [lookupFileAssoc_setFileAssoc_other _ _ _ _ (fun hEq => hne hEq.symm)]
      exact hp3 kv hm
    · rw [hDump]
      simp [FS.lookupFile, lookupFileAssoc_setFileAssoc_same]
  · intro secret dir fs hok
    obtain ⟨hex, hrd⟩ := dump_ok_sentinel secret dir fs hok
    exact hskipcase secret dir _ hex hrd

/-- A filesystem already holding the sentinel for cLeafSecret. -/
def cFSCurrent : FS :=
  { files := [(("certdir", "resource"), { content := "21", perm := 0o600 })],
    writeErr := fun _ => none }

/-- Witness for claim C6 at a concrete filesystem whose sentinel is
current. -/
theorem dump_secret_idempotent_materialization_instance :
    cFSCurrent.fileExists (pathJoin "certdir" "resource") = true ∧
    cFSCurrent.readFile (pathJoin "certdir" "resource") = cLeafSecret.resourceVersion ∧
    DumpSecretToDir cLeafSecret "certdir" cFSCurrent = ([], cFSCurrent, none) :=
  ⟨rfl, rfl,
   dump_secret_idempotent_materialization.1 cLeafSecret "certdir" cFSCurrent rfl rfl⟩

def cNF : Err := { isNotFound := true, msg := "mutating configuration gone" }

/-- A client identical to cClient except that updating the mutating webhook
configuration fails with a NotFound error (the fetch still succeeds). -/
def cClientUpdNF : KubeClient :=
  { cClient with updateMutating := fun _ => Except.error cNF }

/-- The mutating configuration as the injection hands it to the update
call, every CA-bundle overwritten with the leaf tls.crt bytes. -/
def cInjectedMutating : WebhookConfiguration :=
  { name := "mwc",
    webhooks := [{ name := "w1", caBundle := "leaf-cert-bytes", rest := "r1" },
                 { name := "w2", caBundle := "leaf-cert-bytes", rest := "r2" }] }

/-- Claim C4 is false on the code in one respect: the NotFound tolerance is
not limited to errors from fetching the admission configurations.  Below the
mutating configuration is fetched successfully and its update fails with a
NotFound error; the claim then demands that Setup return that error without
executing the validating injection, but Setup logs it, skips it, executes
the validating injection and returns success. -/
theorem setup_swallows_update_notfound :
    cClientUpdNF.getMutating cWebhookEnv.mutatingWebhookConfigurationName =
      Except.ok cMutatingConfig ∧
    cClientUpdNF.updateMutating cInjectedMutating = Except.error cNF ∧
    cNF.isNotFound = true ∧
    (cWebhookEnv.InjectPublicKeyIntoMutatingWebhook cClientUpdNF cLeafSecret).2 = some cNF ∧
    (cWebhookEnv.Setup cEnvStable cClientUpdNF cFS).err = none ∧
    (cWebhookEnv.Setup cEnvStable cClientUpdNF cFS).steps =
      [SetupStep.ensureAuthority, SetupStep.ensureLeafCertificate,
       SetupStep.materializeToDirectory, SetupStep.injectMutating,
       SetupStep.injectValidating] := by
  refine ⟨rfl, rfl, rfl, by decide, by decide, by decide⟩

/-- Claim C4 amended: Setup performs EnsureAuthority, then
EnsureLeafCertificate, then MaterializeToDirectory, then CA-bundle
injection into the mutating configuration, then into the validating one, in
that order, returning the first error encountered without executing later
steps — except that a NotFound error returned by either admission-webhook
injection call (whether its fetch or its update of the configuration
failed NotFound) is logged and skipped, so Setup still completes
successfully when both admission-configuration objects are absent. -/
theorem setup_order_and_short_circuit (webhook : WebhookEnvironment) (env : CryptoEnv)
    (client : KubeClient) (fs : FS) :
    (∀ e, (EnsureRootCACertificate env client webhook.operatorNamespace
        webhook.caSecretName).2 = Except.error e →
      (webhook.Setup env client fs).steps = [SetupStep.ensureAuthority] ∧
      (webhook.Setup env client fs).err = some e ∧
      (webhook.Setup env client fs).fs = fs) ∧
    (∀ caS e, (EnsureRootCACertificate env client webhook.operatorNamespace
        webhook.caSecretName).2 = Except.ok caS →
      (webhook.EnsureCertificate env client caS).2 = Except.error e →
      (webhook.Setup env client fs).steps =
        [SetupStep.ensureAuthority, SetupStep.ensureLeafCertificate] ∧
      (webhook.Setup env client fs).err = some e ∧
      (webhook.Setup env client fs).fs = fs) ∧
    (∀ caS whS e, (EnsureRootCACertificate env client webhook.operatorNamespace
        webhook.caSecretName).2 = Except.ok caS →
      (webhook.EnsureCertificate env client caS).2 = Except.ok whS →
      (DumpSecretToDir whS webhook.certDir fs).2.2 = some e →
      (webhook.Setup env client fs).steps =
        [SetupStep.ensureAuthority, SetupStep.ensureLeafCertificate,
         SetupStep.materializeToDirectory] ∧
      (webhook.Setup env client fs).err = some e ∧
      (webhook.Setup env client fs).fs = (DumpSecretToDir whS webhook.certDir fs).2.1) ∧
    (∀ caS whS e, (EnsureRootCACertificate env client webhook.operatorNamespace
        webhook.caSecretName).2 = Except.ok caS →
      (webhook.EnsureCertificate env client caS).2 = Except.ok whS →
      (DumpSecretToDir whS webhook.certDir fs).2.2 = none →
      (webhook.InjectPublicKeyIntoMutatingWebhook client whS).2 = some e →
      e.isNotFound = false →
      (webhook.Setup env client fs).steps =
        [SetupStep.ensureAuthority, SetupStep.ensureLeafCertificate,
         SetupStep.materializeToDirectory, SetupStep.injectMutating] ∧
      (webhook.Setup env client fs).err = some e) ∧
    (∀ caS whS e, (EnsureRootCACertificate env client webhook.operatorNamespace
        webhook.caSecretName).2 = Except.ok caS →
      (webhook.EnsureCertificate env client caS).2 = Except.ok whS →
      (DumpSecretToDir whS webhook.certDir fs).2.2 = none →
      ((webhook.InjectPublicKeyIntoMutatingWebhook client whS).2 = none ∨
       (∃ e2, (webhook.InjectPublicKeyIntoMutatingWebhook client whS).2 = some e2 ∧
         e2.isNotFound = true)) →
      (webhook.InjectPublicKeyIntoValidatingWebhook client whS).2 = some e →
      e.isNotFound = false →
      (webhook.Setup env client fs).steps =
        [SetupStep.ensureAuthority, SetupStep.ensureLeafCertificate,
         SetupStep.materializeToDirectory, SetupStep.injectMutating,
         SetupStep.injectValidating] ∧
      (webhook.Setup env client fs).err = some e) ∧
    (∀ caS whS, (EnsureRootCACertificate env client webhook.operatorNamespace
        webhook.caSecretName).2 = Except.ok caS →
      (webhook.EnsureCertificate env client caS).2 = Except.ok whS →
      (DumpSecretToDir whS webhook.certDir fs).2.2 = none →
      ((webhook.InjectPublicKeyIntoMutatingWebhook client whS).2 = none ∨
       (∃ e2, (webhook.InjectPublicKeyIntoMutatingWebhook client whS).2 = some e2 ∧
         e2.isNotFound = true)) →
      ((webhook.InjectPublicKeyIntoValidatingWebhook client whS).2 = none ∨
       (∃ e2, (webhook.InjectPublicKeyIntoValidatingWebhook client whS).2 = some e2 ∧
         e2.isNotFound = true)) →
      (webhook.Setup env client fs).steps =
        [SetupStep.ensureAuthority, SetupStep.ensureLeafCertificate,
         SetupStep.materializeToDirectory, SetupStep.injectMutating,
         SetupStep.injectValidating] ∧
      (webhook.Setup env client fs).err = none) := by
  refine ⟨?_, ?_, ?_, ?_, ?_, ?_⟩
  · intro e h1
    refine ⟨?_, ?_, ?_⟩ <;> simp [WebhookEnvironment.Setup, h1]
  · intro caS e h1 h2
    refine ⟨?_, ?_, ?_⟩ <;> simp [WebhookEnvironment.Setup, h1, h2]
  · intro caS whS e h1 h2 h3
    refine ⟨?_, ?_, ?_⟩ <;> simp [WebhookEnvironment.Setup, h1, h2, h3]
  · intro caS whS e h1 h2 h3 h4 hnf
    refine ⟨?_, ?_⟩ <;> simp [WebhookEnvironment.Setup, h1, h2, h3, h4, hnf]
  · intro caS whS e h1 h2 h3 h4 h5 hnf
    rcases h4 with h4 | h4x
    · refine ⟨?_, ?_⟩ <;>
        simp [WebhookEnvironment.Setup, setupFromValidating, h1, h2, h3, h4, h5, hnf]
    · obtain ⟨e2, h4, hnf2⟩ := h4x
      refine ⟨?_, ?_⟩ <;>
        simp [WebhookEnvironment.Setup, setupFromValidating, h1, h2, h3, h4, h5, hnf, hnf2]
  · intro caS whS h1 h2 h3 h4 h5
    rcases h4 with h4 | h4x
    · rcases h5 with h5 | h5x
      · refine ⟨?_, ?_⟩ <;>
          simp [WebhookEnvironment.Setup, setupFromValidating, h1, h2, h3, h4, h5]
      · obtain ⟨e3, h5, hnf3⟩ := h5x
        refine ⟨?_, ?_⟩ <;>
          simp [WebhookEnvironment.Setup, setupFromValidating, h1, h2, h3, h4, h5, hnf3]
    · obtain ⟨e2, h4, hnf2⟩ := h4x
      rcases h5 with h5 | h5x
      · refine ⟨?_, ?_⟩ <;>
          simp [WebhookEnvironment.Setup, setupFromValidating, h1, h2, h3, h4, hnf2, h5]
      · obtain ⟨e3, h5, hnf3⟩ := h5x
        refine ⟨?_, ?_⟩ <;>
          simp [WebhookEnvironment.Setup, setupFromValidating, h1, h2, h3, h4, hnf2, h5, hnf3]

/-- Witness for the amended claim C4 at the fully successful concrete
client: all five steps run and Setup returns success. -/
theorem setup_order_and_short_circuit_instance :
    (EnsureRootCACertificate cEnvStable cClient cWebhookEnv.operatorNamespace
        cWebhookEnv.caSecretName).2 = Except.ok cCASecret ∧
    (cWebhookEnv.EnsureCertificate cEnvStable cClient cCASecret).2 = Except.ok cLeafSecret ∧
    (DumpSecretToDir cLeafSecret cWebhookEnv.certDir cFS).2.2 = none ∧
    ((cWebhookEnv.Setup cEnvStable cClient cFS).steps =
      [SetupStep.ensureAuthority, SetupStep.ensureLeafCertificate,
       SetupStep.materializeToDirectory, SetupStep.injectMutating,
       SetupStep.injectValidating] ∧
     (cWebhookEnv.Setup cEnvStable cClient cFS).err = none) :=
  ⟨rfl, rfl, by decide,
   (setup_order_and_short_circuit cWebhookEnv cEnvStable cClient cFS).2.2.2.2.2
     cCASecret cLeafSecret rfl rfl (by decide) (Or.inl (by decide)) (Or.inl (by decide))⟩
